import Mathlib

/-!
Verification of the ScreepsDashboard back-end core (src-tauri).

This file shallowly embeds the request-orchestration and data-reconciliation
layer of the dashboard: the transport helpers and response cache (`http.rs`),
the batch dispatcher (`requests.rs`), the console variant prober
(`console.rs`), and the room snapshot builder (`rooms.rs`).

Modelling conventions:
* `serde_json::Value` is the inductive `Json` below; JSON numbers are
  modelled as exact rationals (`ℚ`).  Numeric strings are parsed by a
  decimal-grammar parser mirroring Rust's `str::parse::<f64>` on finite
  decimal forms (the non-finite spellings `inf`/`NaN` are not modelled).
* Rust `&str` operations (`trim`, `to_ascii_lowercase`, slicing) are
  modelled on the underlying character list of `String`.
* `std::time::Instant` is modelled as a natural number of abstract ticks,
  `Duration` as a natural number (zero iff `Duration::is_zero()`).
* Network effects (`perform_screeps_request`, `request_first_success`) are
  modelled as explicit oracle parameters; every embedded operation is a
  pure function of its request and its oracle.
* `HashMap`/`serde_json::Map` are modelled as association lists; `insert`
  replaces the binding for an existing key.  Iteration order of hash maps
  is unspecified in Rust, so theorems only state order-insensitive facts
  about map contents.
-/

namespace Screeps

/-- Model of `serde_json::Value`. -/
inductive Json where
  | null
  | bool (b : Bool)
  | num (q : ℚ)
  | str (s : String)
  | arr (items : List Json)
  | obj (fields : List (String × Json))

namespace Json

/-- `map.get(key)` on a JSON object's field list (first binding wins,
as in a Rust map, which has unique keys). -/
def getField (fields : List (String × Json)) (key : String) : Option Json :=
  match fields with
  | [] => none
  | (k, v) :: rest => if k = key then some v else getField rest key

end Json

/-! ### Termination measures for stack-driven scans -/

theorem sum_sizeOf_lt_json (l : List Json) : (l.map sizeOf).sum < sizeOf l := by
  induction l with
  | nil => simp
  | cons a l ih => simp only [List.map_cons, List.sum_cons, List.cons.sizeOf_spec]; omega

theorem sum_sizeOf_lt_fields (l : List (String × Json)) :
    ((l.map (fun p => p.2)).map sizeOf).sum < sizeOf l := by
  induction l with
  | nil => simp
  | cons a l ih =>
    simp only [List.map_cons, List.sum_cons, List.cons.sizeOf_spec]
    have : sizeOf a = 1 + sizeOf a.1 + sizeOf a.2 := by cases a; simp
    omega

/-! ### Character/string primitives

Rust `&str` functions are modelled on `List Char`.  `char::is_whitespace`
is modelled on the ASCII whitespace characters, which is the only fragment
the dashboard's inputs exercise. -/

def isWhitespaceChar (c : Char) : Bool :=
  c = ' ' || c = '\t' || c = '\n' || c = '\r'

/-- Rust `str::trim` on a character list. -/
def trimChars (cs : List Char) : List Char :=
  ((cs.dropWhile isWhitespaceChar).reverse.dropWhile isWhitespaceChar).reverse

/-- Rust `str::trim`. -/
def strTrim (s : String) : String := ⟨trimChars s.data⟩

/-- Rust `char::to_ascii_lowercase`. -/
def asciiLower (c : Char) : Char :=
  if 'A' ≤ c ∧ c ≤ 'Z' then Char.ofNat (c.toNat + 32) else c

/-- Rust `char::to_ascii_uppercase`. -/
def asciiUpper (c : Char) : Char :=
  if 'a' ≤ c ∧ c ≤ 'z' then Char.ofNat (c.toNat - 32) else c

/-- Rust `str::to_ascii_lowercase` (also used to model
`eq_ignore_ascii_case` by comparing against a lowercase literal). -/
def strLower (s : String) : String := ⟨s.data.map asciiLower⟩

/-- Rust `str::to_ascii_uppercase`. -/
def strUpper (s : String) : String := ⟨s.data.map asciiUpper⟩

/-- Rust `str::starts_with` on strings (prefix test on characters). -/
def strStarts (s pre : String) : Bool :=
  decide (pre.data <+: s.data)

/-- Rust `str::ends_with` for a single-character pattern. -/
def strEndsWithChar (s : String) (c : Char) : Bool :=
  s.data.getLast? = some c

/-- Rust `str::trim_end_matches('/')`. -/
def trimEndSlashes (s : String) : String :=
  ⟨(s.data.reverse.dropWhile (fun c => c = '/')).reverse⟩

/-- Dropping the first `n` characters, modelling byte slicing `&s[n..]`
at points where the first `n` characters are known to be ASCII. -/
def strDropChars (s : String) (n : ℕ) : String := ⟨s.data.drop n⟩

/-- Rust `char::is_ascii_digit`. -/
def isAsciiDigit (c : Char) : Bool := '0' ≤ c && c ≤ '9'

/-- Rust `char::is_ascii_hexdigit`. -/
def isAsciiHexDigit (c : Char) : Bool :=
  isAsciiDigit c || ('a' ≤ c && c ≤ 'f') || ('A' ≤ c && c ≤ 'F')

/-! ### Decimal number parsing

Models `str::parse::<f64>` on the grammar
`[+|-] (digits [. digits?] | . digits) [ (e|E) [+|-] digits ]`,
returning the exact rational value.  (Rust additionally accepts
`inf`/`NaN` spellings and rounds to the nearest double; the dashboard's
claims never depend on those differences.) -/

def digitsToNat (cs : List Char) : ℕ :=
  cs.foldl (fun a c => a * 10 + (c.toNat - 48)) 0

def parseDecimalCore (cs : List Char) : Option ℚ :=
  let intPart := cs.takeWhile isAsciiDigit
  let rest := cs.dropWhile isAsciiDigit
  match rest with
  | [] => if intPart = [] then none else some (digitsToNat intPart)
  | '.' :: fracRest =>
    let fracPart := fracRest.takeWhile isAsciiDigit
    let rest2 := fracRest.dropWhile isAsciiDigit
    if intPart = [] ∧ fracPart = [] then none
    else if rest2 = [] then
      some ((digitsToNat intPart : ℚ) +
        (digitsToNat fracPart : ℚ) / ((10 : ℚ) ^ fracPart.length))
    else none
  | _ => none

def parseDecimalSigned (cs : List Char) : Option ℚ :=
  match cs with
  | '-' :: rest => (parseDecimalCore rest).map (fun q => -q)
  | '+' :: rest => parseDecimalCore rest
  | _ => parseDecimalCore cs

/-- Split off a trailing exponent part, then parse. -/
def parseDecimal (s : String) : Option ℚ :=
  let cs := s.data
  match cs.findIdx? (fun c => c = 'e' || c = 'E') with
  | none => parseDecimalSigned cs
  | some i =>
    let mantissa := cs.take i
    let expPart := cs.drop (i + 1)
    let expVal : Option ℤ :=
      match expPart with
      | '-' :: ds => if ds ≠ [] ∧ ds.all isAsciiDigit then some (-(digitsToNat ds : ℤ)) else none
      | '+' :: ds => if ds ≠ [] ∧ ds.all isAsciiDigit then some (digitsToNat ds : ℤ) else none
      | ds => if ds ≠ [] ∧ ds.all isAsciiDigit then some (digitsToNat ds : ℤ) else none
    match parseDecimalSigned mantissa, expVal with
    | some m, some e => some (m * (10 : ℚ) ^ e)
    | _, _ => none

/-! ### Shared JSON field coercions

`value_as_non_empty_string` and `value_as_f64` appear with identical
bodies in both `console.rs` and `rooms.rs`; they are embedded once. -/

/-- `value_as_non_empty_string` (console.rs:39-48 / rooms.rs:207-215). -/
def value_as_non_empty_string (value : Json) : Option String :=
  match value with
  | .str text =>
    let trimmed := strTrim text
    if trimmed = "" then none else some trimmed
  | _ => none

/-- `value_as_f64` (console.rs:50-56 / rooms.rs:217-223): numbers pass
through; strings are trimmed and parsed as decimal numbers. -/
def value_as_f64 (value : Json) : Option ℚ :=
  match value with
  | .num n => some n
  | .str text => parseDecimal (strTrim text)
  | _ => none

/-- `i64::MIN` as an integer. -/
def I64_MIN : ℤ := -(2 ^ 63)
/-- `i64::MAX` as an integer. -/
def I64_MAX : ℤ := 2 ^ 63 - 1

/-- `value_as_i64` (rooms.rs:225-238): round to the nearest integer,
reject values further than `1e-6` from an integer or outside `i64`. -/
def value_as_i64 (value : Json) : Option ℤ :=
  match value_as_f64 value with
  | none => none
  | some raw =>
    let rounded : ℤ := round raw
    if |raw - (rounded : ℚ)| > 1 / 1000000 then none
    else if rounded < I64_MIN ∨ rounded > I64_MAX then none
    else some rounded

/-- `value_as_bool` (rooms.rs:240-258). -/
def value_as_bool (value : Json) : Option Bool :=
  match value with
  | .bool raw => some raw
  | .num n => if n = 1 then some true else if n = 0 then some false else none
  | .str text =>
    let normalized := strLower (strTrim text)
    if normalized = "true" ∨ normalized = "1" then some true
    else if normalized = "false" ∨ normalized = "0" then some false
    else none
  | _ => none

/-- `map_first_string` (rooms.rs:260-267). -/
def map_first_string (record : List (String × Json)) (keys : List String) : Option String :=
  match keys with
  | [] => none
  | k :: rest =>
    match (Json.getField record k).bind value_as_non_empty_string with
    | some v => some v
    | none => map_first_string record rest

/-- `map_first_f64` (rooms.rs:269-276). -/
def map_first_f64 (record : List (String × Json)) (keys : List String) : Option ℚ :=
  match keys with
  | [] => none
  | k :: rest =>
    match (Json.getField record k).bind value_as_f64 with
    | some v => some v
    | none => map_first_f64 record rest

/-! ### Transport core (`http.rs`) -/

/-- `ScreepsRequest` (http.rs:8-18). -/
structure ScreepsRequest where
  base_url : String
  endpoint : String
  method : Option String
  token : Option String
  username : Option String
  query : Option (List (String × Json))
  body : Option Json

/-- `ScreepsResponse` (http.rs:20-27). -/
structure ScreepsResponse where
  status : ℕ
  ok : Bool
  data : Json
  url : String

/-- `normalize_base_url` (http.rs:42-49): trim, strip trailing slashes,
prepend `https://` when the string starts with neither `http://` nor
`https://`. -/
def normalize_base_url (base_url : String) : String :=
  let trimmed := trimEndSlashes (strTrim base_url)
  if strStarts trimmed "http://" || strStarts trimmed "https://" then trimmed
  else "https://" ++ trimmed

/-- `normalize_endpoint` (http.rs:51-57). -/
def normalize_endpoint (endpoint : String) : String :=
  if strStarts endpoint "/" then endpoint else "/" ++ endpoint

/-- `request_url` (http.rs:156-160). -/
def request_url (request : ScreepsRequest) : String :=
  normalize_base_url request.base_url ++ normalize_endpoint request.endpoint

/-- `error_response` (http.rs:162-169): the envelope produced for a
per-task transport failure. -/
def error_response (request : ScreepsRequest) (error : String) : ScreepsResponse :=
  { status := 0
    ok := false
    data := .obj [("error", .str error)]
    url := request_url request }

/-! ### Response cache (`http.rs:29-154`)

`Instant` is an abstract tick count `now : ℕ`; an entry is live while
`now < expires_at`.  `Duration` is a tick count `ttl`, zero iff
`Duration::is_zero()`.  The `HashMap` is an association list whose
`insert` replaces any existing binding for the key. -/

/-- `ResponseCacheEntry` (http.rs:36-40). -/
structure ResponseCacheEntry where
  response : ScreepsResponse
  expires_at : ℕ

abbrev ResponseCache := List (String × ResponseCacheEntry)

/-- `RESPONSE_CACHE_MAX_ENTRIES` (http.rs:34). -/
def RESPONSE_CACHE_MAX_ENTRIES : ℕ := 2048

/-- `HashMap::get` on the association-list model. -/
def lookupKey {T : Type} (m : List (String × T)) (k : String) : Option T :=
  match m with
  | [] => none
  | (k1, v) :: rest => if k1 = k then some v else lookupKey rest k

/-- `HashMap::insert`: replace any binding for `k`, add the new one. -/
def mapInsert {T : Type} (m : List (String × T)) (k : String) (v : T) : List (String × T) :=
  (k, v) :: m.filter (fun p => p.1 ≠ k)

/-- The `guard.retain(|_, entry| entry.expires_at > now)` sweep. -/
def purgeExpired (now : ℕ) (cache : ResponseCache) : ResponseCache :=
  cache.filter (fun p => now < p.2.expires_at)

/-- `iter().min_by_key(|(_, entry)| entry.expires_at)` (http.rs:143-144). -/
def minExpiryPair (entries : ResponseCache) : Option (String × ResponseCacheEntry) :=
  entries.foldl
    (fun best p =>
      match best with
      | none => some p
      | some q => if p.2.expires_at < q.2.expires_at then some p else some q)
    none

/-- `try_read_cached_response` (http.rs:121-127): purge expired entries,
then look the key up; returns the hit and the post-sweep table. -/
def try_read_cached_response (now : ℕ) (cache_key : String) (cache : ResponseCache) :
    Option ScreepsResponse × ResponseCache :=
  let purged := purgeExpired now cache
  ((lookupKey purged cache_key).map (fun e => e.response), purged)

/-- `write_cached_response` (http.rs:129-154): refuse non-success
responses and zero TTLs; purge expired entries; evict the
nearest-expiry entry at capacity; insert. -/
def write_cached_response (now : ℕ) (cache_key : String) (response : ScreepsResponse)
    (ttl : ℕ) (cache : ResponseCache) : ResponseCache :=
  if response.ok = false ∨ ttl = 0 then cache
  else
    let purged := purgeExpired now cache
    let pruned :=
      if RESPONSE_CACHE_MAX_ENTRIES ≤ purged.length then
        match minExpiryPair purged with
        | some oldest => purged.filter (fun p => p.1 ≠ oldest.1)
        | none => purged
      else purged
    mapInsert pruned cache_key { response := response, expires_at := now + ttl }

/-- Cache tables reachable from the empty initial table through the two
source operations, at arbitrary instants. -/
inductive CacheReachable : ResponseCache → Prop
  | empty : CacheReachable []
  | write (now cache_key response ttl cache) : CacheReachable cache →
      CacheReachable (write_cached_response now cache_key response ttl cache)
  | read (now cache_key cache) : CacheReachable cache →
      CacheReachable (try_read_cached_response now cache_key cache).2

/-! ### Batch dispatcher (`requests.rs`)

`perform_screeps_request` is abstracted by an oracle `net : ℕ → Except
String ScreepsResponse` giving each spawned task's transport outcome
(indexed by the descriptor's position).  The nondeterministic order in
which a window's tasks complete is modelled by the `complete` parameter,
which the theorems quantify over all permutations; the join loop's
indexed write-back makes the output independent of it.  A scheduling
fault (a task panicking, which aborts the whole batch in the source) is
outside this model. -/

/-- `max_concurrency.unwrap_or(8).clamp(1, 32)` (requests.rs:29). -/
def clamp_concurrency (max_concurrency : Option ℕ) : ℕ :=
  max (min (max_concurrency.getD 8) 32) 1

/-- The cursor loop of requests.rs:34-59 as a list of index windows
`[cursor, min (cursor + conc) total)`.  The fuel argument (initially
`total`) models the loop's termination: with `conc ≥ 1` the cursor
advances by at least one per iteration. -/
def windowsFromAux (total conc : ℕ) : ℕ → ℕ → List (List ℕ)
  | 0, _ => []
  | fuel + 1, cursor =>
    if cursor < total then
      List.range' cursor (min (cursor + conc) total - cursor) ::
        windowsFromAux total conc fuel (min (cursor + conc) total)
    else []

def batchWindows (total conc : ℕ) : List (List ℕ) := windowsFromAux total conc total 0

/-- A spawned task's result (requests.rs:42-48): the response, or the
status-0 error envelope on a transport failure. -/
def task_outcome (request : ScreepsRequest) (outcome : Except String ScreepsResponse) :
    ScreepsResponse :=
  match outcome with
  | .ok response => response
  | .error e => error_response request e

/-- The final `collect::<Result<Vec<_>, _>>()` (requests.rs:61-67). -/
def collectResponsesAux (index : ℕ) :
    List (Option ScreepsResponse) → Except String (List ScreepsResponse)
  | [] => .ok []
  | none :: _ => .error ("batch response missing at index " ++ toString index)
  | some r :: rest => (collectResponsesAux (index + 1) rest).map (fun l => r :: l)

/-- `screeps_request_many` (requests.rs:21-68). -/
def screeps_request_many (requests : List ScreepsRequest) (max_concurrency : Option ℕ)
    (net : ℕ → Except String ScreepsResponse)
    (complete : List (ℕ × ScreepsResponse) → List (ℕ × ScreepsResponse)) :
    Except String (List ScreepsResponse) :=
  if requests.isEmpty then .ok []
  else
    let conc := clamp_concurrency max_concurrency
    let windows := batchWindows requests.length conc
    let final :=
      windows.foldl
        (fun out window =>
          let results := complete (window.filterMap (fun i =>
            (requests[i]?).map (fun req => (i, task_outcome req (net i)))))
          results.foldl (fun o p => o.set p.1 (some p.2)) out)
        (List.replicate requests.length (none : Option ScreepsResponse))
    collectResponsesAux 0 final

/-! ### Console execution (`console.rs`)

The HTTP layer is abstracted by `net : ℕ → Except String
ScreepsResponse`, the transport outcome of the `i`-th probe attempt
(candidates are tried strictly in order, one request per candidate).
The model covers the path on which `shared_http_client()` succeeded. -/

/-- `normalize_console_shard` (console.rs:27-37). -/
def normalize_console_shard (shard_input : Option String) : Option String :=
  match shard_input with
  | none => none
  | some raw =>
    let shard := strLower (strTrim raw)
    if strStarts shard "shard" = false then none
    else
      let number_part := strDropChars shard 5
      if number_part = "" ∨ number_part.data.all isAsciiDigit = false then none
      else some shard

/-- `is_opaque_token` (console.rs:58-68). -/
def is_opaque_token (value : String) : Bool :=
  let trimmed := strTrim value
  if trimmed = "" || trimmed.data.any isWhitespaceChar then false
  else if (trimmed.data.all (fun ch => isAsciiHexDigit ch || ch = '-')) = false then false
  else 16 ≤ (trimmed.data.filter isAsciiHexDigit).length

/-- `sanitize_console_feedback` (console.rs:70-87). -/
def sanitize_console_feedback (value : Option String) : Option String :=
  match value with
  | none => none
  | some text =>
    let trimmed := strTrim text
    if trimmed = "" then none
    else if trimmed = "1" ∨ strLower trimmed = "ok" then none
    else
      let lowered := strLower trimmed
      if strStarts lowered "ok " ∧ is_opaque_token (strTrim (strDropChars trimmed 3)) then none
      else if is_opaque_token trimmed then none
      else some trimmed

/-- `extract_error_message` (console.rs:89-116) as its explicit stack
machine; `Vec::pop` takes the most recently pushed element, so pushing
a node's children in order visits them last-first. -/
def extract_error_message_stack : List Json → Option String
  | [] => none
  | current :: rest =>
    match current with
    | .arr items => extract_error_message_stack (items.reverse ++ rest)
    | .obj map =>
      match map_first_string map ["error", "message", "text"] with
      | some errorText => some errorText
      | none => extract_error_message_stack ((map.map (fun p => p.2)).reverse ++ rest)
    | .null | .bool _ | .num _ | .str _ => extract_error_message_stack rest
termination_by stack => (stack.map sizeOf).sum
decreasing_by
  all_goals
    simp only [List.map_append, List.map_reverse, List.sum_append, List.sum_reverse,
      List.map_cons, List.sum_cons]
  · have := sum_sizeOf_lt_json items
    have h2 : sizeOf (Json.arr items) = 1 + sizeOf items := by simp
    omega
  · have := sum_sizeOf_lt_fields map
    have h2 : sizeOf (Json.obj map) = 1 + sizeOf map := by simp
    omega
  all_goals simp

def extract_error_message (payload : Json) : Option String :=
  extract_error_message_stack [payload]

/-- The per-object test of `extract_payload_error` (console.rs:127-143):
an explicit `error`/`err`/`errorMessage` string, or the `ok == 0`
sentinel with its `message`/`text` (default "Unknown error") reason. -/
def payload_error_of_fields (map : List (String × Json)) : Option String :=
  match map_first_string map ["error", "err", "errorMessage"] with
  | some explicitError => some explicitError
  | none =>
    if (Json.getField map "ok").bind value_as_f64 = some 0 then
      some ((map_first_string map ["message", "text"]).getD "Unknown error")
    else none

/-- `extract_payload_error` (console.rs:118-153) as its explicit stack
machine.  Note: the source scan is **unbounded** — there is no depth
check in this function. -/
def extract_payload_error_stack : List Json → Option String
  | [] => none
  | current :: rest =>
    match current with
    | .arr items => extract_payload_error_stack (items.reverse ++ rest)
    | .obj map =>
      match payload_error_of_fields map with
      | some reason => some reason
      | none => extract_payload_error_stack ((map.map (fun p => p.2)).reverse ++ rest)
    | .null | .bool _ | .num _ | .str _ => extract_payload_error_stack rest
termination_by stack => (stack.map sizeOf).sum
decreasing_by
  all_goals
    simp only [List.map_append, List.map_reverse, List.sum_append, List.sum_reverse,
      List.map_cons, List.sum_cons]
  · have := sum_sizeOf_lt_json items
    have h2 : sizeOf (Json.arr items) = 1 + sizeOf items := by simp
    omega
  · have := sum_sizeOf_lt_fields map
    have h2 : sizeOf (Json.obj map) = 1 + sizeOf map := by simp
    omega
  all_goals simp

def extract_payload_error (payload : Json) : Option String :=
  extract_payload_error_stack [payload]

/-- `Vec::join("\n")`. -/
def joinNewline : List String → String
  | [] => ""
  | [x] => x
  | x :: rest => x ++ "\n" ++ joinNewline rest

/-- `extract_console_feedback_from_value` (console.rs:155-207).  The
source guards `depth > 6` and recurses with `depth + 1`; this embedding
uses the remaining budget `fuel = 7 - depth` (so the top-level call has
fuel 7 and nodes at source depth 7 are cut). -/
def extract_console_feedback_from_value : ℕ → Json → Option String
  | 0, _ => none
  | fuel + 1, payload =>
    match payload with
    | .str _ => sanitize_console_feedback (value_as_non_empty_string payload)
    | .arr items =>
      let joined := joinNewline (items.filterMap value_as_non_empty_string)
      match sanitize_console_feedback (some joined) with
      | some joinedFeedback => some joinedFeedback
      | none => items.findSome? (fun item => extract_console_feedback_from_value fuel item)
    | .obj map =>
      match sanitize_console_feedback
          (map_first_string map ["result", "output", "stdout", "message", "text", "status"]) with
      | some direct => some direct
      | none =>
        ["result", "results", "output", "stdout", "message", "text", "status", "messages",
          "error", "errors", "log", "logs", "lines", "data", "payload"].findSome?
          (fun key => (Json.getField map key).bind
            (fun value => extract_console_feedback_from_value fuel value))
    | .null | .bool _ | .num _ => none

def extract_console_feedback (payload : Json) : Option String :=
  extract_console_feedback_from_value 7 payload

/-- `ConsoleRequestCandidate` (console.rs:213): label, optional query,
body. -/
abbrev ConsoleRequestCandidate := String × Option (List (String × Json)) × Json

/-- The three shard-carrying variants generated per shard value
(console.rs:232-262). -/
def shard_candidates (key : String) (base_body : List (String × Json)) (base_value : Json)
    (explicitShard : Bool) (shard_value : String) : List ConsoleRequestCandidate :=
  let variantBase :=
    if explicitShard then key ++ "+" ++ shard_value else key ++ "+auto-" ++ shard_value
  [ (variantBase ++ ":shard", none, .obj (base_body ++ [("shard", .str shard_value)])),
    (variantBase ++ ":shardName", none, .obj (base_body ++ [("shardName", .str shard_value)])),
    (variantBase ++ ":?shard", some [("shard", .str shard_value)], base_value) ]

/-- `build_console_request_candidates` (console.rs:215-266). -/
def build_console_request_candidates (code : String) (shard : Option String) :
    List ConsoleRequestCandidate :=
  let shard_values : List String :=
    match shard with
    | some value => [value]
    | none => ["shard0", "shard1", "shard2", "shard3"]
  (["expression", "command"].map (fun key =>
    let base_body : List (String × Json) := [(key, .str code)]
    let base_value : Json := .obj base_body
    (key, none, base_value) ::
      (shard_values.map (shard_candidates key base_body base_value shard.isSome)).flatten)).flatten

/-- `ScreepsConsoleExecuteRequest` (console.rs:7-15). -/
structure ScreepsConsoleExecuteRequest where
  base_url : String
  token : String
  username : String
  code : String
  shard : Option String

/-- `ScreepsConsoleExecuteResponse` (console.rs:17-25). -/
structure ScreepsConsoleExecuteResponse where
  ok : Bool
  feedback : Option String
  error : Option String
  used_variant : Option String
  tried_variants : List String
deriving DecidableEq

/-- Layers 2-3 of the acceptance check applied to a transport-successful
response (console.rs:309-319): `some reason` means rejected. -/
def response_reject (r : ScreepsResponse) : Option String :=
  if r.ok = false then
    some ((extract_error_message r.data).getD ("HTTP " ++ toString r.status))
  else extract_payload_error r.data

/-- All three acceptance layers for one probe attempt. -/
def candidate_reject (outcome : Except String ScreepsResponse) : Option String :=
  match outcome with
  | .error e => some e
  | .ok r => response_reject r

/-- The candidate loop of `screeps_console_execute` (console.rs:289-337),
carrying the attempt index and the `tried_variants`/`failures`
accumulators. -/
def console_probe_loop (net : ℕ → Except String ScreepsResponse) :
    List ConsoleRequestCandidate → ℕ → List String → List String →
    ScreepsConsoleExecuteResponse
  | [], _, tried, failures =>
    { ok := false
      feedback := none
      error := some ("Failed to execute console command: " ++ failures.headD "Unknown error")
      used_variant := none
      tried_variants := tried }
  | (variant, _, _) :: rest, i, tried, failures =>
    let tried' := tried ++ [variant]
    match net i with
    | .error e => console_probe_loop net rest (i + 1) tried' (failures ++ [e])
    | .ok r =>
      match response_reject r with
      | some reason => console_probe_loop net rest (i + 1) tried' (failures ++ [reason])
      | none =>
        { ok := true
          feedback := extract_console_feedback r.data
          error := none
          used_variant := some variant
          tried_variants := tried' }

/-- `screeps_console_execute` (console.rs:268-338), on the path where
`shared_http_client()` succeeded. -/
def screeps_console_execute (request : ScreepsConsoleExecuteRequest)
    (net : ℕ → Except String ScreepsResponse) : ScreepsConsoleExecuteResponse :=
  let trimmed_code := strTrim request.code
  if trimmed_code = "" then
    { ok := false
      feedback := none
      error := some "Console command cannot be empty."
      used_variant := none
      tried_variants := [] }
  else
    let shard := normalize_console_shard request.shard
    console_probe_loop net (build_console_request_candidates trimmed_code shard) 0 [] []

/-! ### Room snapshot builder (`rooms.rs`)

`request_first_success` (rooms.rs:897-908) is abstracted by an oracle
`fetch : List ScreepsRequest → Option Json` returning the data of the
first transport- and HTTP-successful response for the given candidate
request list, or `none` when all fail.  `fetched_at_millis()` is an
explicit `fetched_at` parameter. -/

/-- `RoomSourceSummary` (rooms.rs:28-33). -/
structure RoomSourceSummary where
  x : ℤ
  y : ℤ
deriving DecidableEq

/-- `RoomMineralSummary` (rooms.rs:35-42). -/
structure RoomMineralSummary where
  type : Option String
  x : ℤ
  y : ℤ
deriving DecidableEq

/-- `RoomStructureSummary` (rooms.rs:44-54). -/
structure RoomStructureSummary where
  type : String
  x : ℤ
  y : ℤ
  hits : Option ℚ
  hits_max : Option ℚ
deriving DecidableEq

/-- `RoomCreepSummary` (rooms.rs:56-66). -/
structure RoomCreepSummary where
  name : String
  role : Option String
  x : ℤ
  y : ℤ
  ttl : Option ℚ
deriving DecidableEq

/-- `RoomObjectActionTarget` (rooms.rs:68-73). -/
structure RoomObjectActionTarget where
  x : ℚ
  y : ℚ
deriving DecidableEq

/-- `RoomObjectSpawningSummary` (rooms.rs:75-82). -/
structure RoomObjectSpawningSummary where
  need_time : Option ℚ
  spawn_time : Option ℚ
deriving DecidableEq

/-- `RoomObjectBodyPartSummary` (rooms.rs:84-93). -/
structure RoomObjectBodyPartSummary where
  type : Option String
  hits : Option ℚ
  boost : Option String
deriving DecidableEq

/-- `RoomObjectSaySummary` (rooms.rs:95-101). -/
structure RoomObjectSaySummary where
  text : String
  is_public : Option Bool
deriving DecidableEq

/-- `RoomObjectReservationSummary` (rooms.rs:103-114). -/
structure RoomObjectReservationSummary where
  username : Option String
  user : Option String
  end_time : Option ℚ
  ticks_to_end : Option ℚ
deriving DecidableEq

/-- `RoomObjectSummary` (rooms.rs:116-161). -/
structure RoomObjectSummary where
  id : String
  type : String
  x : ℤ
  y : ℤ
  owner : Option String
  name : Option String
  hits : Option ℚ
  hits_max : Option ℚ
  ttl : Option ℚ
  user : Option String
  store : Option (List (String × ℚ))
  energy : Option ℚ
  energy_capacity : Option ℚ
  level : Option ℚ
  progress : Option ℚ
  progress_total : Option ℚ
  mineral_type : Option String
  body : Option (List RoomObjectBodyPartSummary)
  say : Option RoomObjectSaySummary
  reservation : Option RoomObjectReservationSummary
  spawning : Option RoomObjectSpawningSummary
  cooldown_time : Option ℚ
  action_log : Option (List (String × RoomObjectActionTarget))
deriving DecidableEq

/-- `RoomDetailSnapshot` (rooms.rs:163-187). -/
structure RoomDetailSnapshot where
  fetched_at : String
  room_name : String
  shard : Option String
  owner : Option String
  controller_level : Option ℚ
  energy_available : Option ℚ
  energy_capacity : Option ℚ
  terrain_encoded : Option String
  game_time : Option ℚ
  sources : List RoomSourceSummary
  minerals : List RoomMineralSummary
  structures : List RoomStructureSummary
  creeps : List RoomCreepSummary
  objects : List RoomObjectSummary
deriving DecidableEq

/-- `ParsedEntities` (rooms.rs:189-201), with the typed collections. -/
structure ParsedEntities where
  shard : Option String
  owner : Option String
  controller_level : Option ℚ
  energy_available : Option ℚ
  energy_capacity : Option ℚ
  sources : List RoomSourceSummary
  minerals : List RoomMineralSummary
  structures : List RoomStructureSummary
  creeps : List RoomCreepSummary
  objects : List RoomObjectSummary
deriving DecidableEq

/-- `as_object` (rooms.rs:203-205). -/
def as_object : Json → Option (List (String × Json))
  | .obj record => some record
  | _ => none

/-- `normalize_shard` (rooms.rs:278-288). -/
def normalize_shard (shard_input : Option String) : Option String :=
  match shard_input with
  | none => none
  | some raw =>
    let shard := strLower (strTrim raw)
    if strStarts shard "shard" = false then none
    else
      let number_part := strDropChars shard 5
      if number_part = "" ∨ number_part.data.all isAsciiDigit = false then none
      else some shard

/-- One iteration of the scanning loop of `extract_room_candidate`
(rooms.rs:293-319): the candidate run starting at the head position, if
the head matches `[W|E]<digits>[N|S]<digits>`. -/
def matchRoomRun : List Char → Option (List Char)
  | [] => none
  | c :: rest =>
    if c = 'W' ∨ c = 'E' then
      let ds := rest.takeWhile isAsciiDigit
      let rest1 := rest.dropWhile isAsciiDigit
      if ds = [] then none
      else
        match rest1 with
        | [] => none
        | d :: rest2 =>
          if d = 'N' ∨ d = 'S' then
            let vs := rest2.takeWhile isAsciiDigit
            if vs = [] then none else some (c :: (ds ++ d :: vs))
          else none
    else none

/-- The `for start in 0..chars.len()` loop: first start position whose
run matches. -/
def scanRoomStarts : List Char → Option (List Char)
  | [] => none
  | c :: rest =>
    match matchRoomRun (c :: rest) with
    | some run => some run
    | none => scanRoomStarts rest

/-- `extract_room_candidate` (rooms.rs:290-321). -/
def extract_room_candidate (value : String) : Option String :=
  (scanRoomStarts (strUpper value).data).map (fun l => ⟨l⟩)

/-- `normalize_room_name` (rooms.rs:323-329). -/
def normalize_room_name (room_name : String) : Except String String :=
  let normalized := strUpper (strTrim room_name)
  if extract_room_candidate normalized = some normalized then .ok normalized
  else .error ("Invalid room name: " ++ room_name)

/-- `extract_record_room_name` (rooms.rs:331-340). -/
def extract_record_room_name (record : List (String × Json)) : Option String :=
  ["room", "roomName", "room_id", "roomId", "_id", "name"].findSome? (fun key =>
    ((Json.getField record key).bind value_as_non_empty_string).bind
      (fun value => extract_room_candidate value))

/-- `flatten_records` (rooms.rs:342-360): depth-bounded pre-order
collection of every object node.  The source guards `depth > 6` and
recurses at `depth + 1`; the embedding carries the remaining budget
`fuel = 7 - depth` (top-level call: fuel 7). -/
def flatten_records : ℕ → Json → List (List (String × Json))
  | 0, _ => []
  | fuel + 1, payload =>
    match payload with
    | .arr items => (items.map (flatten_records fuel)).flatten
    | .obj record => record :: ((record.map (fun p => p.2)).map (flatten_records fuel)).flatten
    | _ => []

/-- `collect_numeric_map` (rooms.rs:362-375). -/
def collect_numeric_map (value : Option Json) : Option (List (String × ℚ)) :=
  match value.bind as_object with
  | none => none
  | some record =>
    let output := record.filterMap (fun p => (value_as_f64 p.2).map (fun n => (p.1, n)))
    if output = [] then none else some output

/-- `parse_body` (rooms.rs:377-405). -/
def parse_body (value : Option Json) : Option (List RoomObjectBodyPartSummary) :=
  match value with
  | none => none
  | some v =>
    match v with
    | .arr items =>
      let body := items.filterMap (fun item =>
        match value_as_non_empty_string item with
        | some part_type =>
          some ({ type := some part_type, hits := none, boost := none } :
            RoomObjectBodyPartSummary)
        | none =>
          match as_object item with
          | none => none
          | some record =>
            let part_type := map_first_string record ["type", "part"]
            let hits := (Json.getField record "hits").bind value_as_f64
            let boost := map_first_string record ["boost"]
            if part_type = none ∧ hits = none ∧ boost = none then none
            else some { type := part_type, hits := hits, boost := boost })
      if body = [] then none else some body
    | _ => none

/-- `parse_say` (rooms.rs:407-416). -/
def parse_say (value : Option Json) : Option RoomObjectSaySummary :=
  match value with
  | none => none
  | some raw =>
    match value_as_non_empty_string raw with
    | some text => some { text := text, is_public := none }
    | none =>
      match as_object raw with
      | none => none
      | some record =>
        match map_first_string record ["text", "message", "say"] with
        | none => none
        | some text =>
          some { text := text, is_public := (Json.getField record "isPublic").bind value_as_bool }

/-- `parse_reservation` (rooms.rs:418-428). -/
def parse_reservation (value : Option Json) : Option RoomObjectReservationSummary :=
  match value.bind as_object with
  | none => none
  | some record =>
    let username := map_first_string record ["username", "name"]
    let user := map_first_string record ["user", "userId", "id", "_id"]
    let end_time := map_first_f64 record ["endTime", "time"]
    let ticks_to_end := map_first_f64 record ["ticksToEnd", "ticksRemaining", "ttl"]
    if username = none ∧ user = none ∧ end_time = none ∧ ticks_to_end = none then none
    else some { username := username, user := user, end_time := end_time,
                ticks_to_end := ticks_to_end }

/-- `parse_spawning` (rooms.rs:430-438). -/
def parse_spawning (value : Option Json) : Option RoomObjectSpawningSummary :=
  match value.bind as_object with
  | none => none
  | some record =>
    let need_time := map_first_f64 record ["needTime", "remainingTime"]
    let spawn_time := map_first_f64 record ["spawnTime", "endTime", "time"]
    if need_time = none ∧ spawn_time = none then none
    else some { need_time := need_time, spawn_time := spawn_time }

/-- The verb keys scanned by `parse_action_log` (rooms.rs:443-459). -/
def actionLogKeys : List String :=
  ["attacked", "attack", "build", "harvest", "heal", "healed", "power", "rangedAttack",
   "rangedHeal", "repair", "reserveController", "runReaction", "reverseReaction",
   "transferEnergy", "upgradeController"]

/-- `parse_action_log` (rooms.rs:440-476). -/
def parse_action_log (value : Option Json) :
    Option (List (String × RoomObjectActionTarget)) :=
  match value.bind as_object with
  | none => none
  | some record =>
    let out := actionLogKeys.filterMap (fun key =>
      match (Json.getField record key).bind as_object with
      | none => none
      | some target =>
        match (Json.getField target "x").bind value_as_f64,
              (Json.getField target "y").bind value_as_f64 with
        | some x, some y => some (key, ({ x := x, y := y } : RoomObjectActionTarget))
        | _, _ => none)
    if out = [] then none else some out

/-- The closed structure-type set of `is_structure_type`
(rooms.rs:478-504). -/
def structureTypes : List String :=
  ["constructedWall", "container", "controller", "extension", "extractor", "factory",
   "invaderCore", "keeperLair", "lab", "link", "nuker", "observer", "portal", "powerBank",
   "powerSpawn", "rampart", "road", "spawn", "storage", "terminal", "tower", "wall"]

def is_structure_type (kind : String) : Bool := structureTypes.contains kind

/-- `resolve_object_type` (rooms.rs:506-527). -/
def resolve_object_type (record : List (String × Json)) : Option String :=
  match map_first_string record ["type", "objectType", "structureType"] with
  | some kind => some kind
  | none =>
    if (map_first_f64 record ["progress"]).isSome ∧
        (map_first_f64 record ["progressTotal"]).isSome then
      some "constructionSite"
    else if (map_first_string record ["depositType"]).isSome then some "deposit"
    else if (map_first_string record ["mineralType"]).isSome then some "mineral"
    else if (map_first_string record ["name", "creepName"]).isSome ∧
        (map_first_f64 record ["ticksToLive", "ttl"]).isSome then
      some "creep"
    else none

/-- Does the record carry parseable `x` and `y` fields? -/
def hasXY (record : List (String × Json)) : Bool :=
  ((Json.getField record "x").bind value_as_f64).isSome &&
    ((Json.getField record "y").bind value_as_f64).isSome

/-- `collect_object_records_from_value` (rooms.rs:529-557). -/
def collect_object_records_from_value (value : Json) : List (List (String × Json)) :=
  match value with
  | .arr items => items.filterMap as_object
  | .obj record =>
    if hasXY record then [record]
    else record.filterMap (fun p => (as_object p.2).bind
      (fun nested => if hasXY nested then some nested else none))
  | _ => []

/-- `extract_room_object_records` (rooms.rs:559-590). -/
def extract_room_object_records (payload : Json) : List (List (String × Json)) :=
  let out :=
    match as_object payload with
    | none => []
    | some root_record =>
      (["objects", "roomObjects", "data", "result", "message"].map (fun key =>
        match Json.getField root_record key with
        | some value => collect_object_records_from_value value
        | none => [])).flatten
      ++ (["data", "result", "message"].map (fun key =>
        match (Json.getField root_record key).bind as_object with
        | none => []
        | some container =>
          (["objects", "roomObjects"].map (fun nested_key =>
            match Json.getField container nested_key with
            | some value => collect_object_records_from_value value
            | none => [])).flatten)).flatten
  if out.isEmpty then (flatten_records 7 payload).filter hasXY else out

/-- The mutable accumulator of `parse_entities` (rooms.rs:597-607): the
five keyed `HashMap`s and the aggregate fields. -/
structure ParseAcc where
  shard : Option String
  owner : Option String
  controller_level : Option ℚ
  energy_available : Option ℚ
  energy_capacity : Option ℚ
  sources : List (String × RoomSourceSummary)
  minerals : List (String × RoomMineralSummary)
  structures : List (String × RoomStructureSummary)
  creeps : List (String × RoomCreepSummary)
  objects : List (String × RoomObjectSummary)

/-- The `RoomObjectSummary` built for an accepted record
(rooms.rs:647-681); the coordinate-independent pieces are passed in
from the record loop, which also reuses them in its branches. -/
def build_object_summary (record : List (String × Json)) (x y : ℤ) (object_type : String)
    (object_id : String) (object_owner object_name : Option String)
    (store : Option (List (String × ℚ))) (object_energy object_energy_capacity : Option ℚ) :
    RoomObjectSummary :=
  { id := object_id
    type := object_type
    x := x
    y := y
    owner := object_owner
    name := object_name
    hits := (Json.getField record "hits").bind value_as_f64
    hits_max := (Json.getField record "hitsMax").bind value_as_f64
    ttl := map_first_f64 record ["ticksToLive", "ttl"]
    user := map_first_string record ["user", "userId"]
    store := store
    energy := object_energy
    energy_capacity := object_energy_capacity
    level := (Json.getField record "level").bind value_as_f64
    progress := (Json.getField record "progress").bind value_as_f64
    progress_total := map_first_f64 record ["progressTotal", "total"]
    mineral_type := map_first_string record ["mineralType"]
    body := parse_body ((Json.getField record "body").orElse (fun _ =>
      (Json.getField record "bodyParts").orElse (fun _ =>
        Json.getField record "parts")))
    say := parse_say ((Json.getField record "say").orElse (fun _ =>
      Json.getField record "message"))
    reservation := parse_reservation (Json.getField record "reservation")
    spawning := parse_spawning (Json.getField record "spawning")
    cooldown_time := map_first_f64 record
      ["cooldownTime", "cooldown", "nextRegenerationTime"]
    action_log := parse_action_log ((Json.getField record "actionLog").orElse
      (fun _ => Json.getField record "actions")) }

/-- The body of the record loop of `parse_entities` (rooms.rs:613-751). -/
def process_record (room_name : String) (acc : ParseAcc) (record : List (String × Json)) :
    ParseAcc :=
  if (match extract_record_room_name record with
      | some record_room_name => record_room_name != room_name
      | none => false) = true then acc
  else
    let newShard :=
      match acc.shard with
      | some s => some s
      | none => (map_first_string record ["shard", "worldShard", "mapShard"]).bind
          (fun value => normalize_shard (some value))
    let acc := { acc with shard := newShard }
    match (Json.getField record "x").bind value_as_i64,
          (Json.getField record "y").bind value_as_i64 with
    | some x, some y =>
      if ¬ (0 ≤ x ∧ x ≤ 49 ∧ 0 ≤ y ∧ y ≤ 49) then acc
      else
        match resolve_object_type record with
        | none => acc
        | some object_type =>
          let object_id := (map_first_string record ["_id", "id"]).getD
            (object_type ++ ":" ++ toString x ++ ":" ++ toString y ++ ":" ++
              toString (acc.objects.length + 1))
          let object_owner := map_first_string record ["owner", "user"]
          let object_name := map_first_string record ["name", "creepName"]
          let store := collect_numeric_map (Json.getField record "store")
          let object_energy :=
            match map_first_f64 record ["energy"] with
            | some e => some e
            | none => store.bind (fun item => lookupKey item "energy")
          let object_energy_capacity := map_first_f64 record ["energyCapacity"]
          let object_summary := build_object_summary record x y object_type object_id
            object_owner object_name store object_energy object_energy_capacity
          let object_map_key := object_id ++ ":" ++ object_type ++ ":" ++
            toString x ++ ":" ++ toString y
          let coord_key := toString x ++ ":" ++ toString y
          let acc :=
            { acc with objects := mapInsert acc.objects object_map_key object_summary }
          if object_type = "source" then
            let item : RoomSourceSummary := { x := x, y := y }
            { acc with sources := mapInsert acc.sources coord_key item }
          else if object_type = "mineral" ∨
              (map_first_string record ["mineralType"]).isSome then
            let item : RoomMineralSummary :=
              { type := (map_first_string record ["mineralType"]).orElse
                  (fun _ => some object_type)
                x := x
                y := y }
            { acc with minerals := mapInsert acc.minerals coord_key item }
          else if object_type = "controller" then
            let newOwner := acc.owner.orElse (fun _ => object_owner)
            let newLevel := acc.controller_level.orElse
              (fun _ => map_first_f64 record ["level"])
            { acc with owner := newOwner, controller_level := newLevel }
          else if object_type = "creep" ∨ object_type = "powerCreep" then
            let creep_name := object_name.getD
              (object_type ++ "-" ++ toString x ++ "-" ++ toString y)
            let item : RoomCreepSummary :=
              { name := creep_name
                role := map_first_string record ["role"]
                x := x
                y := y
                ttl := map_first_f64 record ["ticksToLive", "ttl"] }
            { acc with creeps := mapInsert acc.creeps creep_name item }
          else if is_structure_type object_type then
            let structure_map_key := object_type ++ ":" ++ toString x ++ ":" ++ toString y
            let item : RoomStructureSummary :=
              { type := object_type
                x := x
                y := y
                hits := (Json.getField record "hits").bind value_as_f64
                hits_max := (Json.getField record "hitsMax").bind value_as_f64 }
            let acc :=
              { acc with structures := mapInsert acc.structures structure_map_key item }
            if object_type = "spawn" ∨ object_type = "extension" then
              let newAvail :=
                match object_energy with
                | some value => some (acc.energy_available.getD 0 + value)
                | none => acc.energy_available
              let newCap :=
                match object_energy_capacity with
                | some value => some (acc.energy_capacity.getD 0 + value)
                | none => acc.energy_capacity
              { acc with energy_available := newAvail, energy_capacity := newCap }
            else acc
          else acc
    | _, _ => acc

/-- `parse_entities` (rooms.rs:592-766). -/
def parse_entities (room_name : String) (shard_hint : Option String)
    (payloads : List (Option Json)) : ParsedEntities :=
  let init : ParseAcc :=
    { shard := shard_hint, owner := none, controller_level := none,
      energy_available := none, energy_capacity := none,
      sources := [], minerals := [], structures := [], creeps := [], objects := [] }
  let acc := payloads.foldl
    (fun acc payload =>
      match payload with
      | none => acc
      | some payload_value =>
        (extract_room_object_records payload_value).foldl (process_record room_name) acc)
    init
  { shard := acc.shard
    owner := acc.owner
    controller_level := acc.controller_level
    energy_available := acc.energy_available
    energy_capacity := acc.energy_capacity
    sources := acc.sources.map (fun p => p.2)
    minerals := acc.minerals.map (fun p => p.2)
    structures := acc.structures.map (fun p => p.2)
    creeps := acc.creeps.map (fun p => p.2)
    objects := acc.objects.map (fun p => p.2) }

/-- The intermediate map built by `merge_by_key` (rooms.rs:768-777):
fallback entries inserted first, primary entries inserted second so a
shared key keeps only the primary record. -/
def merge_map {T : Type} (key_of : T → String) (primary secondary : List T) :
    List (String × T) :=
  primary.foldl (fun m item => mapInsert m (key_of item) item)
    (secondary.foldl (fun m item => mapInsert m (key_of item) item) [])

/-- `merge_by_key` (rooms.rs:768-777): the merged map's values. -/
def merge_by_key {T : Type} (primary secondary : List T) (key_of : T → String) : List T :=
  (merge_map key_of primary secondary).map (fun p => p.2)

/-- The structure branch of `to_fallback_objects` (rooms.rs:781-807). -/
def fallbackObjectOfStructure (item : RoomStructureSummary) : RoomObjectSummary :=
  { id := "structure:" ++ item.type ++ ":" ++ toString item.x ++ ":" ++ toString item.y
    type := item.type, x := item.x, y := item.y
    owner := none, name := none, hits := item.hits, hits_max := item.hits_max
    ttl := none, user := none, store := none, energy := none, energy_capacity := none
    level := none, progress := none, progress_total := none, mineral_type := none
    body := none, say := none, reservation := none, spawning := none
    cooldown_time := none, action_log := none }

/-- The creep branch of `to_fallback_objects` (rooms.rs:808-834). -/
def fallbackObjectOfCreep (item : RoomCreepSummary) : RoomObjectSummary :=
  { id := "creep:" ++ item.name
    type := "creep", x := item.x, y := item.y
    owner := none, name := some item.name, hits := none, hits_max := none
    ttl := item.ttl, user := none, store := none, energy := none, energy_capacity := none
    level := none, progress := none, progress_total := none, mineral_type := none
    body := none, say := none, reservation := none, spawning := none
    cooldown_time := none, action_log := none }

/-- The source branch of `to_fallback_objects` (rooms.rs:835-861). -/
def fallbackObjectOfSource (item : RoomSourceSummary) : RoomObjectSummary :=
  { id := "source:" ++ toString item.x ++ ":" ++ toString item.y
    type := "source", x := item.x, y := item.y
    owner := none, name := none, hits := none, hits_max := none
    ttl := none, user := none, store := none, energy := none, energy_capacity := none
    level := none, progress := none, progress_total := none, mineral_type := none
    body := none, say := none, reservation := none, spawning := none
    cooldown_time := none, action_log := none }

/-- `to_fallback_objects` (rooms.rs:779-863). -/
def to_fallback_objects (entities : ParsedEntities) : List RoomObjectSummary :=
  entities.structures.map fallbackObjectOfStructure ++
    entities.creeps.map fallbackObjectOfCreep ++
    entities.sources.map fallbackObjectOfSource

/-- `extract_terrain` (rooms.rs:865-870). -/
def extract_terrain (payload : Json) : Option String :=
  (as_object payload).bind (fun root =>
    match map_first_string root ["terrain", "encodedTerrain"] with
    | some t => some t
    | none =>
      match (Json.getField root "terrain").bind value_as_non_empty_string with
      | some t => some t
      | none => (Json.getField root "encodedTerrain").bind value_as_non_empty_string)

/-- `extract_game_time` (rooms.rs:872-875). -/
def extract_game_time (payload : Json) : Option ℚ :=
  (as_object payload).bind (fun root => map_first_f64 root ["gameTime", "time", "tick"])

/-- `build_request` (rooms.rs:877-895). -/
def build_request (base_url token username endpoint method : String)
    (query : Option (List (String × Json))) (body : Option Json) : ScreepsRequest :=
  { base_url := base_url, endpoint := endpoint, method := some method,
    token := some token, username := some username, query := query, body := body }

/-- `ScreepsRoomEndpointConfig` (rooms.rs:8-15). -/
structure ScreepsRoomEndpointConfig where
  endpoint : String
  method : Option String
  query : Option (List (String × Json))
  body : Option Json

/-- `ScreepsRoomDetailRequest` (rooms.rs:17-26). -/
structure ScreepsRoomDetailRequest where
  base_url : String
  token : String
  username : String
  room_name : String
  shard : Option String
  rooms_endpoint : Option ScreepsRoomEndpointConfig

/-- `serde_json` serialization of an `Option<String>` in a `json!` body. -/
def jsonOfOptString : Option String → Json
  | some s => .str s
  | none => .null

/-- The five upstream payloads gathered by `screeps_room_detail_fetch`
(rooms.rs:932-1056), each through the `request_first_success` oracle. -/
structure RoomDetailPayloads where
  terrain : Option Json
  map_stats : Option Json
  overview : Option Json
  room_objects : Option Json
  rooms : Option Json

def room_detail_payloads (request : ScreepsRoomDetailRequest)
    (fetch : List ScreepsRequest → Option Json) (room_name : String)
    (shard : Option String) : RoomDetailPayloads :=
  let shard_value := shard.getD "shard0"
  { terrain := fetch
      [ build_request request.base_url request.token request.username
          "/api/game/room-terrain" "GET"
          (some [("room", .str room_name), ("encoded", .num 1),
                 ("shard", .str shard_value)]) none,
        build_request request.base_url request.token request.username
          "/api/game/room-terrain" "GET"
          (some [("room", .str room_name), ("encoded", .num 1)]) none ]
    map_stats := fetch
      [ build_request request.base_url request.token request.username
          "/api/game/map-stats" "POST" none
          (some (.obj [("rooms", .arr [.str room_name]), ("statName", .str "owner0"),
                       ("shard", jsonOfOptString shard)])) ]
    overview := fetch
      [ build_request request.base_url request.token request.username
          "/api/game/room-overview" "GET"
          (some [("room", .str room_name), ("interval", .num 8),
                 ("shard", .str shard_value)]) none,
        build_request request.base_url request.token request.username
          "/api/game/room-overview" "POST" none
          (some (.obj [("room", .str room_name), ("interval", .num 8),
                       ("shard", jsonOfOptString shard)])) ]
    room_objects := fetch
      [ build_request request.base_url request.token request.username
          "/api/game/room-objects" "GET"
          (some [("room", .str room_name), ("shard", .str shard_value)]) none,
        build_request request.base_url request.token request.username
          "/api/game/room-objects" "POST" none
          (some (.obj [("room", .str room_name), ("shard", jsonOfOptString shard)])),
        build_request request.base_url request.token request.username
          "/api/game/room-objects" "GET"
          (some [("room", .str room_name)]) none ]
    rooms :=
      match request.rooms_endpoint with
      | some config => fetch
          [ build_request request.base_url request.token request.username
              config.endpoint (config.method.getD "GET") config.query config.body ]
      | none => none }

/-- The primary (object-list) parse (rooms.rs:1058-1059). -/
def primary_entities (room_name : String) (shard : Option String)
    (payloads : RoomDetailPayloads) : ParsedEntities :=
  parse_entities room_name shard [payloads.room_objects]

/-- The fallback parse (rooms.rs:1060-1064). -/
def fallback_entities_of (room_name : String) (shard : Option String)
    (payloads : RoomDetailPayloads) : ParsedEntities :=
  parse_entities room_name shard [payloads.map_stats, payloads.rooms, payloads.overview]

/-- The merge key used for sources (rooms.rs:1073-1075). -/
def sourceKey (item : RoomSourceSummary) : String :=
  toString item.x ++ ":" ++ toString item.y

/-- The merge key used for minerals (rooms.rs:1076-1078). -/
def mineralKey (item : RoomMineralSummary) : String :=
  item.type.getD "" ++ ":" ++ toString item.x ++ ":" ++ toString item.y

/-- The merge key used for structures (rooms.rs:1079-1082). -/
def structureKey (item : RoomStructureSummary) : String :=
  item.type ++ ":" ++ toString item.x ++ ":" ++ toString item.y

/-- The merge key used for creeps (rooms.rs:1083-1085). -/
def creepKey (item : RoomCreepSummary) : String := item.name

/-- The merge key used for objects (rooms.rs:1086-1087). -/
def objectKey (item : RoomObjectSummary) : String := item.id

/-- `screeps_room_detail_fetch` (rooms.rs:917-1114), with the network
abstracted by `fetch` and the wall clock by `fetched_at`. -/
def screeps_room_detail_fetch (request : ScreepsRoomDetailRequest)
    (fetch : List ScreepsRequest → Option Json) (fetched_at : String) :
    Except String RoomDetailSnapshot :=
  if strTrim request.token = "" then .error "Token cannot be empty"
  else if strTrim request.username = "" then .error "Username cannot be empty"
  else
    match normalize_room_name request.room_name with
    | .error e => .error e
    | .ok room_name =>
      let shard := normalize_shard request.shard
      let payloads := room_detail_payloads request fetch room_name shard
      let parsed_room_objects := primary_entities room_name shard payloads
      let fallback_entities := fallback_entities_of room_name shard payloads
      let fallback_objects := to_fallback_objects fallback_entities
      .ok
        { fetched_at := fetched_at
          room_name := room_name
          shard := (parsed_room_objects.shard.orElse
            (fun _ => fallback_entities.shard)).orElse (fun _ => shard)
          owner := parsed_room_objects.owner.orElse (fun _ => fallback_entities.owner)
          controller_level := parsed_room_objects.controller_level.orElse
            (fun _ => fallback_entities.controller_level)
          energy_available := parsed_room_objects.energy_available.orElse
            (fun _ => fallback_entities.energy_available)
          energy_capacity := parsed_room_objects.energy_capacity.orElse
            (fun _ => fallback_entities.energy_capacity)
          terrain_encoded := payloads.terrain.bind extract_terrain
          game_time := (payloads.room_objects.bind extract_game_time).orElse (fun _ =>
            (payloads.overview.bind extract_game_time).orElse (fun _ =>
              (payloads.map_stats.bind extract_game_time).orElse (fun _ =>
                (payloads.terrain.bind extract_game_time).orElse (fun _ =>
                  payloads.rooms.bind extract_game_time))))
          sources := merge_by_key parsed_room_objects.sources fallback_entities.sources
            sourceKey
          minerals := merge_by_key parsed_room_objects.minerals fallback_entities.minerals
            mineralKey
          structures := merge_by_key parsed_room_objects.structures
            fallback_entities.structures structureKey
          creeps := merge_by_key parsed_room_objects.creeps fallback_entities.creeps
            creepKey
          objects := merge_by_key parsed_room_objects.objects fallback_objects objectKey }

/-! ### Specification-side predicates and demonstration inputs -/

/-- The last element of `l` whose key is `k` — the binding a fold of
`mapInsert`s over `l` leaves in the map. -/
def lastWith {T : Type} (key_of : T → String) (k : String) : List T → Option T
  | [] => none
  | a :: rest =>
    match lastWith key_of k rest with
    | some v => some v
    | none => if key_of a = k then some a else none

/-- The merge contract of claim C1 for one collection: wherever a key
occurs in the primary list, the merged list contains a primary record
with that key and nothing else under that key (primary wins, never
field-merged); every fallback record whose key is absent from the
primary list is kept unchanged. -/
def mergeSpec {T : Type} (key_of : T → String) (primary secondary merged : List T) : Prop :=
  (∀ k, (∃ p ∈ primary, key_of p = k) →
    ∃ p ∈ primary, key_of p = k ∧ p ∈ merged ∧ ∀ v ∈ merged, key_of v = k → v = p) ∧
  (∀ s ∈ secondary, (∀ p ∈ primary, key_of p ≠ key_of s) →
    (∀ t ∈ secondary, key_of t = key_of s → t = s) → s ∈ merged)

/-- A valid room-detail request used to witness the fetch-level
theorems. -/
def demoRoomRequest : ScreepsRoomDetailRequest :=
  { base_url := "https://server", token := "t", username := "u",
    room_name := "W1N1", shard := none, rooms_endpoint := none }

/-- The snapshot the fetch produces for `demoRoomRequest` when every
upstream probe fails. -/
def demoEmptySnapshot : RoomDetailSnapshot :=
  { fetched_at := "0", room_name := "W1N1", shard := none, owner := none,
    controller_level := none, energy_available := none, energy_capacity := none,
    terrain_encoded := none, game_time := none,
    sources := [], minerals := [], structures := [], creeps := [], objects := [] }

/-- Does the error pattern of `extract_payload_error`'s per-object test
fire on this object? -/
def objHasError (map : List (String × Json)) : Bool :=
  (payload_error_of_fields map).isSome

/-- Does the error pattern occur anywhere in the value, at **any**
depth?  This is the depth-unbounded characterization of the source's
stack scan. -/
def hasErrNode : Json → Bool
  | .null | .bool _ | .num _ | .str _ => false
  | .arr items => items.attach.any (fun x => hasErrNode x.1)
  | .obj map => objHasError map || map.attach.any (fun x => hasErrNode x.1.2)
decreasing_by
  · have := List.sizeOf_lt_of_mem x.2
    have h2 : sizeOf (Json.arr items) = 1 + sizeOf items := by simp
    omega
  · have := List.sizeOf_lt_of_mem x.2
    have h2 : sizeOf (Json.obj map) = 1 + sizeOf map := by simp
    have h3 : sizeOf x.1 = 1 + sizeOf x.1.1 + sizeOf x.1.2 := by
      cases x.1; simp
    omega

/-- Modelled from the spec: the claim's depth-bounded (max depth 6)
recursive error scan, carried as the remaining budget `fuel = 7 - depth`
(top-level call: fuel 7, so nodes below source depth 6 are never
inspected). -/
def spec_scan_bounded : ℕ → Json → Bool
  | 0, _ => false
  | fuel + 1, v =>
    match v with
    | .arr items => items.any (spec_scan_bounded fuel)
    | .obj map => objHasError map || (map.map (fun p => p.2)).any (spec_scan_bounded fuel)
    | _ => false

/-- `n` wrapper objects around a value. -/
def nestWrap : ℕ → Json → Json
  | 0, v => v
  | n + 1, v => .obj [("wrap", nestWrap n v)]

/-- A payload whose only error-carrying node sits at nesting depth 10,
well below the claimed depth-6 bound. -/
def deepErrValue : Json := nestWrap 10 (.obj [("error", .str "boom")])

/-- An all-empty request descriptor, used only as an out-of-range
default in proofs. -/
def emptyScreepsRequest : ScreepsRequest :=
  { base_url := "", endpoint := "", method := none, token := none,
    username := none, query := none, body := none }

/-- Two descriptors used to witness the batch dispatcher theorem. -/
def demoBatchRequests : List ScreepsRequest :=
  [ { base_url := "https://a", endpoint := "x", method := none, token := none,
      username := none, query := none, body := none },
    { base_url := "https://a", endpoint := "y", method := none, token := none,
      username := none, query := none, body := none } ]

/-- The claim's room-name pattern: the whole character list is one
contiguous run `[W|E]<digits>[N|S]<digits>`. -/
def SpecRoomName (cs : List Char) : Prop :=
  ∃ c ds d vs, cs = c :: (ds ++ d :: vs) ∧ (c = 'W' ∨ c = 'E') ∧
    ds ≠ [] ∧ (∀ x ∈ ds, isAsciiDigit x = true) ∧ (d = 'N' ∨ d = 'S') ∧
    vs ≠ [] ∧ (∀ x ∈ vs, isAsciiDigit x = true)

/-- A room-detail request with an invalid room name, used to witness
that validation rejects it before any fetch. -/
def demoBadRoomRequest : ScreepsRoomDetailRequest :=
  { base_url := "https://server", token := "t", username := "u",
    room_name := "not-a-room", shard := none, rooms_endpoint := none }

/-- Claim C7's coordinate invariant on the parse accumulator's maps. -/
def accCoordsOK (acc : ParseAcc) : Prop :=
  (∀ p ∈ acc.sources, 0 ≤ p.2.x ∧ p.2.x ≤ 49 ∧ 0 ≤ p.2.y ∧ p.2.y ≤ 49) ∧
  (∀ p ∈ acc.minerals, 0 ≤ p.2.x ∧ p.2.x ≤ 49 ∧ 0 ≤ p.2.y ∧ p.2.y ≤ 49) ∧
  (∀ p ∈ acc.structures, 0 ≤ p.2.x ∧ p.2.x ≤ 49 ∧ 0 ≤ p.2.y ∧ p.2.y ≤ 49) ∧
  (∀ p ∈ acc.creeps, 0 ≤ p.2.x ∧ p.2.x ≤ 49 ∧ 0 ≤ p.2.y ∧ p.2.y ≤ 49) ∧
  (∀ p ∈ acc.objects, 0 ≤ p.2.x ∧ p.2.x ≤ 49 ∧ 0 ≤ p.2.y ∧ p.2.y ≤ 49)

/-- Claim C7's coordinate invariant on a produced entity set. -/
def entityCoordsOK (pe : ParsedEntities) : Prop :=
  (∀ s ∈ pe.sources, 0 ≤ s.x ∧ s.x ≤ 49 ∧ 0 ≤ s.y ∧ s.y ≤ 49) ∧
  (∀ m ∈ pe.minerals, 0 ≤ m.x ∧ m.x ≤ 49 ∧ 0 ≤ m.y ∧ m.y ≤ 49) ∧
  (∀ st ∈ pe.structures, 0 ≤ st.x ∧ st.x ≤ 49 ∧ 0 ≤ st.y ∧ st.y ≤ 49) ∧
  (∀ cr ∈ pe.creeps, 0 ≤ cr.x ∧ cr.x ≤ 49 ∧ 0 ≤ cr.y ∧ cr.y ≤ 49) ∧
  (∀ o ∈ pe.objects, 0 ≤ o.x ∧ o.x ≤ 49 ∧ 0 ≤ o.y ∧ o.y ≤ 49)

/-- A room-objects payload with one in-bounds source at (49,49) and one
out-of-bounds record at (50,10). -/
def demoRoomObjectsPayload : Json :=
  .obj [("objects", .arr
    [ .obj [("type", .str "source"), ("x", .num 49), ("y", .num 49)],
      .obj [("type", .str "source"), ("x", .num 50), ("y", .num 10)] ])]

/-! ## Theorems -/

/-! ### Shared list/string lemmas -/

theorem head_dropWhile_not {α} (p : α → Bool) :
    ∀ (l : List α) (a : α), (l.dropWhile p).head? = some a → p a = false := by
  intro l
  induction l with
  | nil => intro a h; simp [List.dropWhile] at h
  | cons x xs ih =>
    intro a h
    by_cases hx : p x
    · rw [List.dropWhile_cons_of_pos hx] at h
      exact ih a h
    · rw [List.dropWhile_cons_of_neg hx] at h
      simp at h
      simp [← h]
      simpa using hx

/-- C9: the transport core's address normalization trims trailing
slashes from the base, prepends `https://` exactly when the trimmed
input carries neither the `http://` nor the `https://` scheme, leaves
scheme-carrying inputs unprefixed, and every normalized endpoint path
begins with `/`. -/
theorem normalize_url_spec :
    (∀ s : String, strEndsWithChar (trimEndSlashes s) '/' = false) ∧
    (∀ s : String,
      (strStarts (trimEndSlashes (strTrim s)) "http://" ||
        strStarts (trimEndSlashes (strTrim s)) "https://") = false →
      normalize_base_url s = "https://" ++ trimEndSlashes (strTrim s)) ∧
    (∀ s : String,
      (strStarts (trimEndSlashes (strTrim s)) "http://" ||
        strStarts (trimEndSlashes (strTrim s)) "https://") = true →
      normalize_base_url s = trimEndSlashes (strTrim s)) ∧
    (∀ e : String, strStarts (normalize_endpoint e) "/" = true) := by
  refine ⟨?_, ?_, ?_, ?_⟩
  · intro s
    simp only [strEndsWithChar, trimEndSlashes, List.getLast?_reverse]
    by_cases h : ((s.data.reverse.dropWhile (fun c => c = '/')).head? = some '/')
    · have := head_dropWhile_not (fun c => c = '/') s.data.reverse '/' h
      simp at this
    · simpa using h
  · intro s h
    simp [normalize_base_url, h]
  · intro s h
    simp [normalize_base_url, h]
  · intro e
    simp only [normalize_endpoint]
    by_cases h : strStarts e "/" = true
    · simp [h]
    · simp only [Bool.not_eq_true] at h
      simp only [h, Bool.false_eq_true, if_false]
      simp only [strStarts, String.data_append, decide_eq_true_eq]
      exact List.prefix_append _ _

/-- C9 witness: a bare host with a trailing slash gains the scheme and
loses the slash; a scheme-carrying address is kept. -/
theorem normalize_url_spec_witness :
    ((strStarts (trimEndSlashes (strTrim "example.com/")) "http://" ||
        strStarts (trimEndSlashes (strTrim "example.com/")) "https://") = false ∧
      normalize_base_url "example.com/" = "https://" ++ trimEndSlashes (strTrim "example.com/")) ∧
    ((strStarts (trimEndSlashes (strTrim "https://example.com/")) "http://" ||
        strStarts (trimEndSlashes (strTrim "https://example.com/")) "https://") = true ∧
      normalize_base_url "https://example.com/" = trimEndSlashes (strTrim "https://example.com/")) :=
  ⟨⟨by decide, normalize_url_spec.2.1 "example.com/" (by decide)⟩,
   ⟨by decide, normalize_url_spec.2.2.1 "https://example.com/" (by decide)⟩⟩

/-- C8: console feedback sanitization suppresses blank input, the
literal "1", a case-insensitive "ok", "ok " followed by an opaque
hex/hyphen token, and a bare opaque token; all other text passes
through unchanged apart from trimming. -/
theorem sanitize_feedback_spec :
    sanitize_console_feedback (some "") = none ∧
    sanitize_console_feedback (some "1") = none ∧
    sanitize_console_feedback (some "OK") = none ∧
    sanitize_console_feedback (some "ok 9f8e7d6c5b4a39281706f5e4d3c2b1a0") = none ∧
    sanitize_console_feedback (some "9f8e7d6c5b4a39281706f5e4d3c2b1a0") = none ∧
    sanitize_console_feedback (some "Hello world") = some "Hello world" ∧
    (∀ s, sanitize_console_feedback (some s) = none ∨
      sanitize_console_feedback (some s) = some (strTrim s)) ∧
    (∀ s, sanitize_console_feedback (some s) = none ↔
      (strTrim s = "" ∨ strTrim s = "1" ∨ strLower (strTrim s) = "ok" ∨
        (strStarts (strLower (strTrim s)) "ok " = true ∧
          is_opaque_token (strTrim (strDropChars (strTrim s) 3)) = true) ∨
        is_opaque_token (strTrim s) = true)) := by
  refine ⟨by decide, by decide, by decide, by decide, by decide, by decide, ?_, ?_⟩
  · intro s
    simp only [sanitize_console_feedback]
    split
    · exact Or.inl rfl
    · split
      · exact Or.inl rfl
      · split
        · exact Or.inl rfl
        · split
          · exact Or.inl rfl
          · exact Or.inr rfl
  · intro s
    simp only [sanitize_console_feedback]
    constructor
    · intro h
      split at h
      · exact Or.inl (by assumption)
      · split at h
        · rename_i h2
          rcases h2 with h2 | h2
          · exact Or.inr (Or.inl h2)
          · exact Or.inr (Or.inr (Or.inl h2))
        · split at h
          · rename_i h3
            exact Or.inr (Or.inr (Or.inr (Or.inl ⟨h3.1, h3.2⟩)))
          · split at h
            · rename_i h4
              exact Or.inr (Or.inr (Or.inr (Or.inr h4)))
            · simp at h
    · intro h
      split
      · rfl
      · split
        · rfl
        · split
          · rfl
          · split
            · rfl
            · rename_i hne hne2 hno2 hno3
              exfalso
              rcases h with h | h | h | h | h
              · exact hne h
              · exact hne2 (Or.inl h)
              · exact hne2 (Or.inr h)
              · exact hno2 ⟨h.1, h.2⟩
              · simp [h] at hno3

/-! ### C3: cache invariants -/

theorem mem_mapInsert {T : Type} {m : List (String × T)} {k : String} {v : T} {p}
    (h : p ∈ mapInsert m k v) : p = (k, v) ∨ p ∈ m := by
  simp only [mapInsert, List.mem_cons] at h
  rcases h with h | h
  · exact Or.inl h
  · exact Or.inr (List.mem_filter.1 h).1

theorem mem_purgeExpired {now : ℕ} {cache : ResponseCache} {p} (h : p ∈ purgeExpired now cache) :
    p ∈ cache ∧ now < p.2.expires_at := by
  have := List.mem_filter.1 h
  exact ⟨this.1, by simpa using this.2⟩

/-- Every entry of the post-purge, possibly pruned table was in the
original table and is unexpired. -/
theorem mem_pruned {now : ℕ} {cache : ResponseCache} {p}
    (h : p ∈ (if RESPONSE_CACHE_MAX_ENTRIES ≤ (purgeExpired now cache).length then
        match minExpiryPair (purgeExpired now cache) with
        | some oldest => (purgeExpired now cache).filter (fun q => q.1 ≠ oldest.1)
        | none => purgeExpired now cache
      else purgeExpired now cache)) : p ∈ cache ∧ now < p.2.expires_at := by
  split at h
  · split at h
    · exact mem_purgeExpired (List.mem_filter.1 h).1
    · exact mem_purgeExpired h
  · exact mem_purgeExpired h

/-- C3: a cache entry is never written for a non-success response or a
zero TTL; every entry of every reachable cache table holds an envelope
with `ok = true`; the expiry sweep runs on every read and on every
write that inserts, so no expired entry survives the access. -/
theorem cache_invariants :
    (∀ (now : ℕ) cache_key response (ttl : ℕ) cache, response.ok = false ∨ ttl = 0 →
      write_cached_response now cache_key response ttl cache = cache) ∧
    (∀ cache, CacheReachable cache → ∀ p ∈ cache, p.2.response.ok = true) ∧
    (∀ (now : ℕ) cache_key cache, ∀ p ∈ (try_read_cached_response now cache_key cache).2,
      now < p.2.expires_at) ∧
    (∀ (now : ℕ) cache_key response (ttl : ℕ) cache, response.ok = true → ttl ≠ 0 →
      ∀ p ∈ write_cached_response now cache_key response ttl cache,
        now < p.2.expires_at) := by
  refine ⟨?_, ?_, ?_, ?_⟩
  · intro now cache_key response ttl cache h
    unfold write_cached_response
    rw [if_pos h]
  · intro cache h
    induction h with
    | empty => intro p hp; simp at hp
    | write now cache_key response ttl cache hc ih =>
      intro p hp
      unfold write_cached_response at hp
      split at hp
      · exact ih p hp
      · rename_i hcond
        rcases mem_mapInsert hp with rfl | hp2
        · simp only [not_or] at hcond
          simpa using hcond.1
        · exact ih p (mem_pruned hp2).1
    | read now cache_key cache hc ih =>
      intro p hp
      exact ih p (mem_purgeExpired hp).1
  · intro now cache_key cache p hp
    exact (mem_purgeExpired hp).2
  · intro now cache_key response ttl cache hok httl p hp
    unfold write_cached_response at hp
    rw [if_neg (by simp [hok, httl])] at hp
    rcases mem_mapInsert hp with rfl | hp2
    · simpa using Nat.pos_of_ne_zero httl
    · exact (mem_pruned hp2).2

/-- C3 witness: the rejected write leaves the empty table unchanged;
the empty table is reachable and satisfies the invariant; a successful
write leaves only unexpired entries. -/
theorem cache_invariants_witness :
    (({ status := 500, ok := false, data := Json.null, url := "" } :
        ScreepsResponse).ok = false ∨ (5 : ℕ) = 0) ∧
    write_cached_response 3 "k"
      { status := 500, ok := false, data := Json.null, url := "" } 5 [] = [] ∧
    (∀ p ∈ ([] : ResponseCache), p.2.response.ok = true) ∧
    ({ status := 200, ok := true, data := Json.null, url := "" } :
        ScreepsResponse).ok = true ∧ (5 : ℕ) ≠ 0 ∧
    (∀ p ∈ write_cached_response 3 "k"
        { status := 200, ok := true, data := Json.null, url := "" } 5 [],
      3 < p.2.expires_at) :=
  ⟨Or.inl rfl,
   cache_invariants.1 3 "k" _ 5 [] (Or.inl rfl),
   cache_invariants.2.1 [] CacheReachable.empty,
   rfl, by decide,
   cache_invariants.2.2.2 3 "k" _ 5 [] rfl (by decide)⟩

/-! ### C1: primary/fallback merge precedence -/

theorem lookupKey_filter_ne {T : Type} (m : List (String × T)) (k k' : String) (h : k' ≠ k) :
    lookupKey (m.filter (fun p => p.1 ≠ k)) k' = lookupKey m k' := by
  induction m with
  | nil => rfl
  | cons a rest ih =>
    cases a with
    | mk a1 a2 =>
      by_cases ha : a1 = k
      · have ha1 : ¬ a1 = k' := by rw [ha]; exact fun hh => h hh.symm
        rw [List.filter_cons_of_neg (by simp [ha]), ih]
        simp [lookupKey, ha1]
      · rw [List.filter_cons_of_pos (by simp [ha])]
        simp only [lookupKey]
        by_cases hk : a1 = k'
        · simp [hk]
        · rw [if_neg hk, if_neg hk]
          exact ih

theorem lookupKey_mapInsert {T : Type} (m : List (String × T)) (k k' : String) (v : T) :
    lookupKey (mapInsert m k v) k' = if k = k' then some v else lookupKey m k' := by
  simp only [mapInsert, lookupKey]
  by_cases h : k = k'
  · simp [h]
  · simp only [h, if_false]
    exact lookupKey_filter_ne m k k' (fun hh => h hh.symm)

theorem lookupKey_foldl_mapInsert {T : Type} (key_of : T → String) (l : List T)
    (m : List (String × T)) (k : String) :
    lookupKey (l.foldl (fun acc item => mapInsert acc (key_of item) item) m) k =
      match lastWith key_of k l with
      | some v => some v
      | none => lookupKey m k := by
  induction l generalizing m with
  | nil => simp [lastWith]
  | cons a rest ih =>
    simp only [List.foldl_cons, lastWith]
    rw [ih]
    cases hrest : lastWith key_of k rest with
    | some v => simp
    | none =>
      simp only [lookupKey_mapInsert]
      by_cases h : key_of a = k
      · simp [h]
      · simp [h]

theorem lastWith_eq_some {T : Type} (key_of : T → String) (k : String) :
    ∀ (l : List T) (v : T), lastWith key_of k l = some v → v ∈ l ∧ key_of v = k := by
  intro l
  induction l with
  | nil => intro v h; simp [lastWith] at h
  | cons a rest ih =>
    intro v h
    simp only [lastWith] at h
    cases hrest : lastWith key_of k rest with
    | some w =>
      rw [hrest] at h
      injection h with h2
      subst h2
      obtain ⟨hmem, hkey⟩ := ih w hrest
      exact ⟨List.mem_cons_of_mem a hmem, hkey⟩
    | none =>
      rw [hrest] at h
      by_cases hak : key_of a = k
      · rw [if_pos hak] at h
        injection h with h2
        subst h2
        exact ⟨List.mem_cons_self a rest, hak⟩
      · rw [if_neg hak] at h
        cases h

theorem lastWith_isSome_of_mem {T : Type} (key_of : T → String) (l : List T) (p : T)
    (hp : p ∈ l) : (lastWith key_of (key_of p) l).isSome = true := by
  induction l with
  | nil => simp at hp
  | cons a rest ih =>
    simp only [lastWith]
    cases hrest : lastWith key_of (key_of p) rest with
    | some w => simp
    | none =>
      rcases List.mem_cons.1 hp with rfl | hmem
      · simp
      · have := ih hmem
        rw [hrest] at this
        simp at this

theorem keys_mapInsert {T : Type} (m : List (String × T)) (k : String) (v : T) :
    (mapInsert m k v).map Prod.fst = k :: ((m.map Prod.fst).filter (fun x => x ≠ k)) := by
  simp only [mapInsert, List.map_cons]
  congr 1
  induction m with
  | nil => rfl
  | cons a rest ih =>
    by_cases ha : a.1 = k
    · rw [List.filter_cons_of_neg (by simp [ha]), List.map_cons,
        List.filter_cons_of_neg (by simp [ha])]
      exact ih
    · rw [List.filter_cons_of_pos (by simp [ha]), List.map_cons, List.map_cons,
        List.filter_cons_of_pos (by simp [ha]), ih]

theorem keys_nodup_foldl {T : Type} (key_of : T → String) (l : List T) :
    ∀ (m : List (String × T)), ((m.map Prod.fst)).Nodup →
    (((l.foldl (fun acc item => mapInsert acc (key_of item) item) m)).map Prod.fst).Nodup := by
  induction l with
  | nil => intro m hm; simpa using hm
  | cons a rest ih =>
    intro m hm
    simp only [List.foldl_cons]
    refine ih _ ?_
    rw [keys_mapInsert]
    refine List.Nodup.cons ?_ (List.Nodup.filter _ hm)
    intro hmem
    have := (List.mem_filter.1 hmem).2
    simp at this

theorem merge_map_keys_nodup {T : Type} (key_of : T → String) (primary secondary : List T) :
    ((merge_map key_of primary secondary).map Prod.fst).Nodup := by
  unfold merge_map
  exact keys_nodup_foldl key_of primary _ (keys_nodup_foldl key_of secondary [] (by simp))

theorem merge_map_key_consistent {T : Type} (key_of : T → String) (primary secondary : List T) :
    ∀ p ∈ merge_map key_of primary secondary, p.1 = key_of p.2 := by
  unfold merge_map
  have step : ∀ (l : List T) (m : List (String × T)),
      (∀ p ∈ m, p.1 = key_of p.2) →
      ∀ p ∈ l.foldl (fun acc item => mapInsert acc (key_of item) item) m, p.1 = key_of p.2 := by
    intro l
    induction l with
    | nil => intro m hm; simpa using hm
    | cons a rest ih =>
      intro m hm p hp
      refine ih _ ?_ p hp
      intro q hq
      rcases mem_mapInsert hq with rfl | hq2
      · rfl
      · exact hm q hq2
  exact step primary _ (step secondary [] (by simp))

theorem lookupKey_eq_some_of_mem_nodup {T : Type} (m : List (String × T))
    (hm : (m.map Prod.fst).Nodup) (p : String × T) (hp : p ∈ m) :
    lookupKey m p.1 = some p.2 := by
  induction m with
  | nil => simp at hp
  | cons a rest ih =>
    cases a with
    | mk k1 v1 =>
      rcases List.mem_cons.1 hp with rfl | hmem
      · simp [lookupKey]
      · have hm2 : k1 ∉ rest.map Prod.fst ∧ (rest.map Prod.fst).Nodup := by
          rw [List.map_cons] at hm
          exact List.nodup_cons.1 hm
        have hk : ¬ k1 = p.1 := by
          intro hh
          apply hm2.1
          have hpm : p.1 ∈ rest.map Prod.fst := List.mem_map_of_mem Prod.fst hmem
          rwa [← hh] at hpm
        simp only [lookupKey, hk, if_false]
        exact ih hm2.2 hmem

theorem mem_of_lookupKey_eq_some {T : Type} (m : List (String × T)) (k : String) (v : T)
    (h : lookupKey m k = some v) : (k, v) ∈ m := by
  induction m with
  | nil => simp [lookupKey] at h
  | cons a rest ih =>
    cases a with
    | mk k1 v1 =>
      by_cases hk : k1 = k
      · simp only [lookupKey, hk, if_true] at h
        cases h
        subst hk
        simp
      · simp only [lookupKey, hk, if_false] at h
        exact List.mem_cons_of_mem _ (ih h)

theorem merge_map_lookup {T : Type} (key_of : T → String) (primary secondary : List T)
    (k : String) :
    lookupKey (merge_map key_of primary secondary) k =
      match lastWith key_of k primary with
      | some v => some v
      | none => lastWith key_of k secondary := by
  unfold merge_map
  rw [lookupKey_foldl_mapInsert]
  cases lastWith key_of k primary with
  | some v => rfl
  | none =>
    simp only
    rw [lookupKey_foldl_mapInsert]
    cases lastWith key_of k secondary with
    | some v => rfl
    | none => simp [lookupKey]

/-- The generic contract of `merge_by_key`: a fold of keyed inserts
where the fallback is inserted first and the primary second. -/
theorem merge_by_key_spec {T : Type} (key_of : T → String) (primary secondary : List T) :
    mergeSpec key_of primary secondary (merge_by_key primary secondary key_of) := by
  constructor
  · intro k hex
    obtain ⟨p0, hp0, hp0k⟩ := hex
    have hsome := lastWith_isSome_of_mem key_of primary p0 hp0
    rw [hp0k] at hsome
    cases hv : lastWith key_of k primary with
    | none => rw [hv] at hsome; simp at hsome
    | some v =>
      obtain ⟨hvmem, hvk⟩ := lastWith_eq_some key_of k primary v hv
      have hlook : lookupKey (merge_map key_of primary secondary) k = some v := by
        rw [merge_map_lookup, hv]
      refine ⟨v, hvmem, hvk, ?_, ?_⟩
      · exact List.mem_map_of_mem (fun p => p.2) (mem_of_lookupKey_eq_some _ _ _ hlook)
      · intro w hw hwk
        obtain ⟨q, hq, hq2⟩ := List.mem_map.1 hw
        have hqk : q.1 = key_of q.2 := merge_map_key_consistent key_of primary secondary q hq
        have hlq : lookupKey (merge_map key_of primary secondary) q.1 = some q.2 :=
          lookupKey_eq_some_of_mem_nodup _ (merge_map_keys_nodup key_of primary secondary) q hq
        simp only [hq2] at hlq
        rw [hqk, hq2, hwk, hlook] at hlq
        exact (Option.some.inj hlq).symm
  · intro s hs habsent huniq
    have hnone : lastWith key_of (key_of s) primary = none := by
      cases hv : lastWith key_of (key_of s) primary with
      | none => rfl
      | some v =>
        obtain ⟨hvmem, hvk⟩ := lastWith_eq_some key_of (key_of s) primary v hv
        exact absurd hvk (habsent v hvmem)
    have hsome := lastWith_isSome_of_mem key_of secondary s hs
    cases hv : lastWith key_of (key_of s) secondary with
    | none => rw [hv] at hsome; simp at hsome
    | some t =>
      obtain ⟨htmem, htk⟩ := lastWith_eq_some key_of (key_of s) secondary t hv
      have hts : t = s := huniq t htmem htk
      have hlook : lookupKey (merge_map key_of primary secondary) (key_of s) = some s := by
        rw [merge_map_lookup, hnone, hv, hts]
      exact List.mem_map_of_mem (fun p => p.2) (mem_of_lookupKey_eq_some _ _ _ hlook)

/-- C1: in every snapshot produced by `screeps_room_detail_fetch`, each
of the five merged collections satisfies the merge contract — wherever
a key occurs in the primary (object-list) parse, the snapshot keeps
exactly the primary's record, and every fallback record with a fresh
key is kept unchanged. -/
theorem room_detail_merge_primary_wins (request : ScreepsRoomDetailRequest)
    (fetch : List ScreepsRequest → Option Json) (fetched_at : String)
    (snap : RoomDetailSnapshot) (room_name : String)
    (hroom : normalize_room_name request.room_name = Except.ok room_name)
    (h : screeps_room_detail_fetch request fetch fetched_at = Except.ok snap) :
    let shard := normalize_shard request.shard
    let payloads := room_detail_payloads request fetch room_name shard
    let primary := primary_entities room_name shard payloads
    let fallback := fallback_entities_of room_name shard payloads
    mergeSpec sourceKey primary.sources fallback.sources snap.sources ∧
    mergeSpec mineralKey primary.minerals fallback.minerals snap.minerals ∧
    mergeSpec structureKey primary.structures fallback.structures snap.structures ∧
    mergeSpec creepKey primary.creeps fallback.creeps snap.creeps ∧
    mergeSpec objectKey primary.objects (to_fallback_objects fallback) snap.objects := by
  unfold screeps_room_detail_fetch at h
  split at h
  · cases h
  · split at h
    · cases h
    · rw [hroom] at h
      simp only [Except.ok.injEq] at h
      subst h
      exact ⟨merge_by_key_spec _ _ _, merge_by_key_spec _ _ _, merge_by_key_spec _ _ _,
        merge_by_key_spec _ _ _, merge_by_key_spec _ _ _⟩

/-- C1 witness: the fetch on a valid request whose probes all fail
produces a snapshot, and its collections satisfy the merge contract. -/
theorem room_detail_merge_primary_wins_witness :
    normalize_room_name demoRoomRequest.room_name = Except.ok "W1N1" ∧
    screeps_room_detail_fetch demoRoomRequest (fun _ => none) "0" =
      Except.ok demoEmptySnapshot ∧
    mergeSpec sourceKey
      (primary_entities "W1N1" (normalize_shard demoRoomRequest.shard)
        (room_detail_payloads demoRoomRequest (fun _ => none) "W1N1"
          (normalize_shard demoRoomRequest.shard))).sources
      (fallback_entities_of "W1N1" (normalize_shard demoRoomRequest.shard)
        (room_detail_payloads demoRoomRequest (fun _ => none) "W1N1"
          (normalize_shard demoRoomRequest.shard))).sources
      demoEmptySnapshot.sources :=
  ⟨rfl, rfl,
    (room_detail_merge_primary_wins demoRoomRequest (fun _ => none) "0" demoEmptySnapshot
      "W1N1" rfl rfl).1⟩

/-! ### C2 and C10: console probe loop -/

/-- Candidate lists are never empty for any code/shard pair. -/
theorem build_console_request_candidates_ne_nil (code : String) (shard : Option String) :
    build_console_request_candidates code shard ≠ [] := by
  cases shard <;> simp [build_console_request_candidates]

/-- Exhaustion: when every probe attempt is rejected, the loop returns
the failure response carrying all labels and the accumulated reasons. -/
theorem console_probe_loop_all_rejected (net : ℕ → Except String ScreepsResponse) :
    ∀ (cands : List ConsoleRequestCandidate) (i0 : ℕ) (tried0 failures0 : List String),
    (∀ j, j < cands.length → (candidate_reject (net (i0 + j))).isSome = true) →
    console_probe_loop net cands i0 tried0 failures0 =
      { ok := false
        feedback := none
        error := some ("Failed to execute console command: " ++
          (failures0 ++ (List.range cands.length).map
            (fun j => (candidate_reject (net (i0 + j))).getD "Unknown error")).headD
            "Unknown error")
        used_variant := none
        tried_variants := tried0 ++ cands.map (fun c => c.1) } := by
  intro cands
  induction cands with
  | nil => intro i0 tried0 failures0 _; simp [console_probe_loop]
  | cons c rest ih =>
    intro i0 tried0 failures0 hrej
    obtain ⟨variant, query, body⟩ := c
    have h0 := hrej 0 (by simp)
    simp only [Nat.add_zero] at h0
    have hshift : ∀ j, j < rest.length →
        (candidate_reject (net (i0 + 1 + j))).isSome = true := by
      intro j hj
      have := hrej (j + 1) (by simp; omega)
      rwa [show i0 + (j + 1) = i0 + 1 + j by omega] at this
    have hrange : (List.range (rest.length + 1)).map
        (fun j => (candidate_reject (net (i0 + j))).getD "Unknown error") =
        ((candidate_reject (net i0)).getD "Unknown error") ::
          (List.range rest.length).map
            (fun j => (candidate_reject (net (i0 + 1 + j))).getD "Unknown error") := by
      rw [List.range_succ_eq_map]
      simp only [List.map_cons, Nat.add_zero, List.map_map]
      congr 1
      apply List.map_congr_left
      intro j _
      simp only [Function.comp_apply]
      rw [show i0 + (j + 1) = i0 + 1 + j by omega]
    simp only [console_probe_loop, List.length_cons]
    cases hnet : net i0 with
    | error e =>
      dsimp only
      rw [ih (i0 + 1) (tried0 ++ [variant]) (failures0 ++ [e]) hshift]
      have hcr : candidate_reject (net i0) = some e := by
        simp [candidate_reject, hnet]
      simp [hrange, hcr, List.append_assoc]
    | ok r =>
      dsimp only
      cases hrr : response_reject r with
      | some reason =>
        dsimp only
        rw [ih (i0 + 1) (tried0 ++ [variant]) (failures0 ++ [reason]) hshift]
        have hcr : candidate_reject (net i0) = some reason := by
          simp [candidate_reject, hnet, hrr]
        simp [hrange, hcr, List.append_assoc]
      | none =>
        exfalso
        have hcr : candidate_reject (net i0) = none := by
          simp [candidate_reject, hnet, hrr]
        rw [hcr] at h0
        simp at h0

/-- Case analysis of the probe loop: either every candidate was
rejected, or some first candidate was accepted. -/
theorem console_probe_loop_cases (net : ℕ → Except String ScreepsResponse) :
    ∀ (cands : List ConsoleRequestCandidate) (i0 : ℕ) (tried0 failures0 : List String),
    (let res := console_probe_loop net cands i0 tried0 failures0
     (res.ok = false ∧ res.feedback = none ∧ res.error.isSome = true ∧
       res.used_variant = none ∧ res.tried_variants = tried0 ++ cands.map (fun c => c.1)) ∨
     (∃ j, ∃ hj : j < cands.length, res.ok = true ∧ res.error = none ∧
       res.used_variant = some (cands.get ⟨j, hj⟩).1 ∧
       res.tried_variants = tried0 ++ (cands.take (j + 1)).map (fun c => c.1))) := by
  intro cands
  induction cands with
  | nil => intro i0 tried0 failures0; left; simp [console_probe_loop]
  | cons c rest ih =>
    intro i0 tried0 failures0
    obtain ⟨variant, query, body⟩ := c
    simp only [console_probe_loop]
    cases hnet : net i0 with
    | error e =>
      dsimp only
      rcases ih (i0 + 1) (tried0 ++ [variant]) (failures0 ++ [e])
          with ⟨h1, h2, h3, h4, h5⟩ | ⟨j, hj, h1, h2, h3, h4⟩
      · left
        exact ⟨h1, h2, h3, h4, by simpa [List.append_assoc] using h5⟩
      · right
        refine ⟨j + 1, by simpa using Nat.succ_lt_succ hj, h1, h2, ?_, ?_⟩
        · simpa using h3
        · simpa [List.append_assoc] using h4
    | ok r =>
      dsimp only
      cases hrr : response_reject r with
      | some reason =>
        dsimp only
        rcases ih (i0 + 1) (tried0 ++ [variant]) (failures0 ++ [reason])
            with ⟨h1, h2, h3, h4, h5⟩ | ⟨j, hj, h1, h2, h3, h4⟩
        · left
          exact ⟨h1, h2, h3, h4, by simpa [List.append_assoc] using h5⟩
        · right
          refine ⟨j + 1, by simpa using Nat.succ_lt_succ hj, h1, h2, ?_, ?_⟩
          · simpa using h3
          · simpa [List.append_assoc] using h4
      | none =>
        dsimp only
        right
        exact ⟨0, by simp, rfl, rfl, by simp, by simp⟩

/-- C2: when the code is non-blank and every candidate is rejected, the
result is a failure whose error carries the reason of the earliest
(first) rejected candidate and whose `tried_variants` lists the labels
of all candidates in probing order. -/
theorem console_execute_first_failure_reason (request : ScreepsConsoleExecuteRequest)
    (net : ℕ → Except String ScreepsResponse)
    (hcode : strTrim request.code ≠ "")
    (hrej : ∀ j, j < (build_console_request_candidates (strTrim request.code)
        (normalize_console_shard request.shard)).length →
      (candidate_reject (net j)).isSome = true) :
    (screeps_console_execute request net).ok = false ∧
    (screeps_console_execute request net).error =
      some ("Failed to execute console command: " ++
        (candidate_reject (net 0)).getD "Unknown error") ∧
    (screeps_console_execute request net).tried_variants =
      (build_console_request_candidates (strTrim request.code)
        (normalize_console_shard request.shard)).map (fun c => c.1) := by
  have hrej0 : ∀ j, j < (build_console_request_candidates (strTrim request.code)
      (normalize_console_shard request.shard)).length →
      (candidate_reject (net (0 + j))).isSome = true := by
    simpa using hrej
  have hloop := console_probe_loop_all_rejected net
    (build_console_request_candidates (strTrim request.code)
      (normalize_console_shard request.shard)) 0 [] [] hrej0
  have hne := build_console_request_candidates_ne_nil (strTrim request.code)
    (normalize_console_shard request.shard)
  simp only [screeps_console_execute, hcode, if_false]
  rw [hloop]
  refine ⟨rfl, ?_, by simp⟩
  cases hc : build_console_request_candidates (strTrim request.code)
      (normalize_console_shard request.shard) with
  | nil => exact absurd hc hne
  | cons c0 crest => simp [List.range_succ_eq_map]

/-- C2 witness: with code "x", no shard, and a transport that always
fails with "boom", the probe exhausts all candidates and reports the
first reason. -/
theorem console_execute_first_failure_reason_witness :
    (strTrim "x" ≠ "") ∧
    (∀ j, j < (build_console_request_candidates (strTrim "x")
        (normalize_console_shard none)).length →
      (candidate_reject ((fun _ => Except.error "boom") j :
        Except String ScreepsResponse)).isSome = true) ∧
    (screeps_console_execute
        { base_url := "b", token := "t", username := "u", code := "x", shard := none }
        (fun _ => Except.error "boom")).error =
      some ("Failed to execute console command: " ++
        (candidate_reject (Except.error "boom" : Except String ScreepsResponse)).getD
          "Unknown error") :=
  ⟨by decide, fun j _ => rfl,
   (console_execute_first_failure_reason
      { base_url := "b", token := "t", username := "u", code := "x", shard := none }
      (fun _ => Except.error "boom") (by decide) (fun j _ => rfl)).2.1⟩

/-- C10: every console-execute result satisfies the shape invariant —
`ok` holds iff `error` is absent iff a `used_variant` is present;
`tried_variants` is a prefix of the deterministic label sequence for the
trimmed code and normalized shard, and is empty for blank code; on
success the last tried label is the used variant. -/
theorem console_execute_shape_invariant (request : ScreepsConsoleExecuteRequest)
    (net : ℕ → Except String ScreepsResponse) :
    let res := screeps_console_execute request net
    let labels := (build_console_request_candidates (strTrim request.code)
      (normalize_console_shard request.shard)).map (fun c => c.1)
    (res.ok = true ↔ res.error = none) ∧
    (res.ok = true ↔ res.used_variant.isSome = true) ∧
    (∃ t, res.tried_variants ++ t = labels) ∧
    (strTrim request.code = "" → res.tried_variants = []) ∧
    (res.ok = true → res.tried_variants.getLast? = res.used_variant) := by
  intro res labels
  by_cases hcode : strTrim request.code = ""
  · refine ⟨?_, ?_, ⟨labels, ?_⟩, fun _ => ?_, ?_⟩ <;>
      simp [res, labels, screeps_console_execute, hcode]
  · have hres : res = console_probe_loop net
        (build_console_request_candidates (strTrim request.code)
          (normalize_console_shard request.shard)) 0 [] [] := by
      simp [res, screeps_console_execute, hcode]
    rcases console_probe_loop_cases net
        (build_console_request_candidates (strTrim request.code)
          (normalize_console_shard request.shard)) 0 [] []
        with ⟨h1, h2, h3, h4, h5⟩ | ⟨j, hj, h1, h2, h3, h4⟩
    · rw [hres]
      refine ⟨?_, ?_, ⟨[], by simpa [labels] using h5⟩, fun hh => absurd hh hcode, ?_⟩
      · constructor
        · intro hh; rw [hh] at h1; cases h1
        · intro hh
          rw [hh] at h3
          simp at h3
      · constructor
        · intro hh; rw [hh] at h1; cases h1
        · intro hh; rw [h4] at hh; simp at hh
      · intro hh; rw [hh] at h1; cases h1
    · rw [hres]
      refine ⟨?_, ?_, ?_, fun hh => absurd hh hcode, ?_⟩
      · constructor
        · intro _; exact h2
        · intro _; exact h1
      · constructor
        · intro _; rw [h3]; rfl
        · intro _; exact h1
      · refine ⟨((build_console_request_candidates (strTrim request.code)
            (normalize_console_shard request.shard)).drop (j + 1)).map (fun c => c.1), ?_⟩
        rw [h4]
        simp only [labels, List.nil_append, ← List.map_append]
        rw [List.take_append_drop]
      · intro _
        rw [h4, h3]
        simp only [List.nil_append]
        rw [List.getLast?_eq_getElem?]
        have hlen : (((build_console_request_candidates (strTrim request.code)
            (normalize_console_shard request.shard)).take (j + 1)).map
              (fun c => c.1)).length = j + 1 := by
          simp only [List.length_map, List.length_take]
          omega
        rw [hlen]
        simp only [Nat.add_sub_cancel, List.getElem?_map]
        rw [List.getElem?_take_of_lt (by omega)]
        rw [List.getElem?_eq_getElem hj]
        simp

/-- C10 witness: a probe where the first candidate is accepted with an
empty payload yields `ok`, no error, a used variant, and tried labels
forming a prefix of the label sequence ending in the used variant. -/
theorem console_execute_shape_invariant_witness :
    (let res := screeps_console_execute
        { base_url := "b", token := "t", username := "u", code := "x", shard := none }
        (fun _ => Except.ok { status := 200, ok := true, data := Json.obj [], url := "" })
     let labels := (build_console_request_candidates (strTrim "x")
        (normalize_console_shard none)).map (fun c => c.1)
     (res.ok = true ↔ res.error = none) ∧
     (res.ok = true ↔ res.used_variant.isSome = true) ∧
     (∃ t, res.tried_variants ++ t = labels) ∧
     (strTrim "x" = "" → res.tried_variants = []) ∧
     (res.ok = true → res.tried_variants.getLast? = res.used_variant)) :=
  console_execute_shape_invariant
    { base_url := "b", token := "t", username := "u", code := "x", shard := none }
    (fun _ => Except.ok { status := 200, ok := true, data := Json.obj [], url := "" })

/-! ### C5: payload-level acceptance scan -/

theorem hasErrNode_arr (items : List Json) :
    hasErrNode (.arr items) = items.any hasErrNode := by
  simp only [hasErrNode]
  rw [Bool.eq_iff_iff]
  simp [List.any_eq_true, List.mem_attach, Subtype.exists]

theorem hasErrNode_obj (map : List (String × Json)) :
    hasErrNode (.obj map) = (objHasError map || (map.map (fun p => p.2)).any hasErrNode) := by
  simp only [hasErrNode]
  rw [Bool.eq_iff_iff]
  simp only [Bool.or_eq_true, List.any_eq_true, List.mem_attach, true_and, Subtype.exists,
    List.mem_map]
  aesop

/-- The stack machine of `extract_payload_error` finds an error exactly
when some stacked value contains the error pattern at any depth. -/
theorem extract_payload_error_stack_isSome (stack : List Json) :
    (extract_payload_error_stack stack).isSome = stack.any hasErrNode := by
  induction stack using extract_payload_error_stack.induct with
  | case1 => simp [extract_payload_error_stack]
  | case2 items rest ih =>
    rw [extract_payload_error_stack]
    simp only [ih, List.any_append, List.any_reverse, List.any_cons]
    rw [hasErrNode_arr]
  | case3 map rest reason hmap =>
    rw [extract_payload_error_stack]
    simp only [hmap, Option.isSome_some, List.any_cons]
    rw [hasErrNode_obj]
    simp [objHasError, hmap]
  | case4 map rest hmap ih =>
    rw [extract_payload_error_stack]
    simp only [hmap]
    simp only [ih, List.any_append, List.any_reverse, List.any_cons]
    rw [hasErrNode_obj]
    simp [objHasError, hmap]
  | case5 rest ih =>
    rw [extract_payload_error_stack]
    simp [ih, hasErrNode]
  | case6 b rest ih =>
    rw [extract_payload_error_stack]
    simp [ih, hasErrNode]
  | case7 q rest ih =>
    rw [extract_payload_error_stack]
    simp [ih, hasErrNode]
  | case8 t rest ih =>
    rw [extract_payload_error_stack]
    simp [ih, hasErrNode]

theorem hasErrNode_nestWrap (n : ℕ) (v : Json) : hasErrNode (nestWrap n v) = hasErrNode v := by
  induction n with
  | zero => rfl
  | succ n ih =>
    rw [nestWrap, hasErrNode_obj]
    have hobj : objHasError [("wrap", nestWrap n v)] = false := by
      simp [objHasError, payload_error_of_fields, map_first_string, Json.getField]
    simp [hobj, ih]

/-- C5 (amended): the payload-level acceptance check detects an
application error in a body **iff an unbounded recursive scan** (no
depth limit — the source scan has no depth check) finds a non-empty
string under an `error`/`err`/`errorMessage` key or an `ok` field equal
to 0; at a detecting object with no explicit error string, the reason
is the `message`/`text` field or "Unknown error". -/
theorem extract_payload_error_unbounded_scan :
    (∀ payload : Json, (extract_payload_error payload).isSome = hasErrNode payload) ∧
    (∀ map : List (String × Json),
      map_first_string map ["error", "err", "errorMessage"] = none →
      (Json.getField map "ok").bind value_as_f64 = some 0 →
      extract_payload_error (.obj map) =
        some ((map_first_string map ["message", "text"]).getD "Unknown error")) := by
  constructor
  · intro payload
    have h := extract_payload_error_stack_isSome [payload]
    simpa [extract_payload_error] using h
  · intro map h1 h2
    rw [extract_payload_error, extract_payload_error_stack]
    simp [payload_error_of_fields, h1, h2]

/-- C5 amended-claim witness: the scan agrees with the unbounded
characterization on a plain string, and an `ok = 0` object with no
message yields "Unknown error". -/
theorem extract_payload_error_unbounded_scan_witness :
    ((extract_payload_error (.str "plain")).isSome = hasErrNode (.str "plain")) ∧
    map_first_string [("ok", Json.num 0)] ["error", "err", "errorMessage"] = none ∧
    (Json.getField [("ok", Json.num 0)] "ok").bind value_as_f64 = some 0 ∧
    extract_payload_error (.obj [("ok", Json.num 0)]) = some "Unknown error" :=
  ⟨extract_payload_error_unbounded_scan.1 (.str "plain"),
   by decide, rfl,
   extract_payload_error_unbounded_scan.2 [("ok", Json.num 0)] (by decide) rfl⟩

/-- C5 counterexample: the claim's depth-6-bounded scan misses the
error node nested 10 objects deep, yet `extract_payload_error` detects
it — the source scan is unbounded, refuting "for every JSON value whose
error-carrying node lies deeper than depth 6, no error is detected". -/
theorem payload_error_depth_counterexample :
    spec_scan_bounded 7 deepErrValue = false ∧
    (extract_payload_error deepErrValue).isSome = true := by
  constructor
  · decide
  · have h := extract_payload_error_stack_isSome [deepErrValue]
    have h2 : hasErrNode deepErrValue = true := by
      rw [deepErrValue, hasErrNode_nestWrap, hasErrNode_obj]
      have : objHasError [("error", Json.str "boom")] = true := by decide
      simp [this]
    simpa [extract_payload_error, h2] using h

/-! ### C4: batch dispatcher ordering and per-task isolation -/

theorem foldl_set_length (pairs : List (ℕ × ScreepsResponse)) :
    ∀ out : List (Option ScreepsResponse),
    (pairs.foldl (fun o p => o.set p.1 (some p.2)) out).length = out.length := by
  induction pairs with
  | nil => intro out; rfl
  | cons a rest ih => intro out; rw [List.foldl_cons, ih, List.length_set]

theorem foldl_set_not_mem (pairs : List (ℕ × ScreepsResponse)) :
    ∀ (out : List (Option ScreepsResponse)) (j : ℕ), (∀ p ∈ pairs, p.1 ≠ j) →
    (pairs.foldl (fun o p => o.set p.1 (some p.2)) out)[j]? = out[j]? := by
  induction pairs with
  | nil => intro out j _; rfl
  | cons a rest ih =>
    intro out j h
    rw [List.foldl_cons, ih _ j (fun p hp => h p (List.mem_cons_of_mem a hp))]
    rw [List.getElem?_set]
    simp [h a (List.mem_cons_self a rest)]

theorem foldl_set_mem (pairs : List (ℕ × ScreepsResponse)) :
    ∀ (out : List (Option ScreepsResponse)) (j : ℕ) (v : ScreepsResponse),
    (pairs.map Prod.fst).Nodup → (j, v) ∈ pairs → j < out.length →
    (pairs.foldl (fun o p => o.set p.1 (some p.2)) out)[j]? = some (some v) := by
  induction pairs with
  | nil => intro out j v _ h _; simp at h
  | cons a rest ih =>
    intro out j v hnd hmem hlt
    rw [List.foldl_cons]
    rw [List.map_cons] at hnd
    rcases List.mem_cons.1 hmem with heq | hmem2
    · subst heq
      have hnot : ∀ p ∈ rest, p.1 ≠ j := by
        intro p hp hpj
        apply (List.nodup_cons.1 hnd).1
        have : p.1 ∈ rest.map Prod.fst := List.mem_map_of_mem Prod.fst hp
        simpa [hpj] using this
      rw [foldl_set_not_mem rest _ j hnot]
      rw [List.getElem?_set]
      simp [hlt]
    · exact ih _ j v (List.nodup_cons.1 hnd).2 hmem2 (by rw [List.length_set]; exact hlt)

theorem window_pairs_spec (requests : List ScreepsRequest)
    (net : ℕ → Except String ScreepsResponse) :
    ∀ window : List ℕ, (∀ i ∈ window, i < requests.length) →
    (window.filterMap (fun i => (requests[i]?).map
        (fun req => (i, task_outcome req (net i))))).map Prod.fst = window ∧
    ∀ p ∈ window.filterMap (fun i => (requests[i]?).map
        (fun req => (i, task_outcome req (net i)))),
      (requests[p.1]?).map (fun req => task_outcome req (net p.1)) = some p.2 := by
  intro window
  induction window with
  | nil => exact fun _ => ⟨rfl, by simp⟩
  | cons i rest ih =>
    intro h
    have hi : i < requests.length := h i (List.mem_cons_self i rest)
    have hrest := ih (fun t ht => h t (List.mem_cons_of_mem i ht))
    have hreq : requests[i]? = some requests[i] := List.getElem?_eq_getElem hi
    constructor
    · rw [List.filterMap_cons]
      rw [hreq]
      simp only [Option.map_some']
      rw [List.map_cons, hrest.1]
    · intro p hp
      rw [List.filterMap_cons] at hp
      rw [hreq] at hp
      simp only [Option.map_some'] at hp
      rcases List.mem_cons.1 hp with heq | hmem
      · subst heq
        simp [hreq]
      · exact hrest.2 p hmem

theorem windows_fold_spec (requests : List ScreepsRequest)
    (net : ℕ → Except String ScreepsResponse)
    (complete : List (ℕ × ScreepsResponse) → List (ℕ × ScreepsResponse))
    (hperm : ∀ l, (complete l).Perm l) (conc : ℕ) (hconc : 1 ≤ conc) :
    ∀ (fuel cursor : ℕ) (out : List (Option ScreepsResponse)),
      out.length = requests.length → requests.length - cursor ≤ fuel →
      (let final := (windowsFromAux requests.length conc fuel cursor).foldl
        (fun out window =>
          (complete (window.filterMap (fun i =>
            (requests[i]?).map (fun req => (i, task_outcome req (net i)))))).foldl
            (fun o p => o.set p.1 (some p.2)) out) out
       final.length = requests.length ∧
       ∀ j, j < requests.length → final[j]? =
         if cursor ≤ j then (requests[j]?).map (fun req => some (task_outcome req (net j)))
         else out[j]?) := by
  intro fuel
  induction fuel with
  | zero =>
    intro cursor out hlen hfuel
    refine ⟨by simpa [windowsFromAux] using hlen, fun j hj => ?_⟩
    rw [if_neg (by omega)]
    simp [windowsFromAux]
  | succ fuel ih =>
    intro cursor out hlen hfuel
    rw [windowsFromAux]
    by_cases hcur : cursor < requests.length
    · rw [if_pos hcur]
      rw [List.foldl_cons]
      set m := min (cursor + conc) requests.length with hm
      have hmle : m ≤ requests.length := Nat.min_le_right _ _
      have hmge : cursor + 1 ≤ m := by omega
      have hwin : ∀ i ∈ List.range' cursor (m - cursor), cursor ≤ i ∧ i < m := by
        intro i hi
        have := List.mem_range'_1.1 hi
        omega
      have hpairs := window_pairs_spec requests net (List.range' cursor (m - cursor))
        (fun i hi => lt_of_lt_of_le (hwin i hi).2 hmle)
      set pairs := (List.range' cursor (m - cursor)).filterMap (fun i =>
        (requests[i]?).map (fun req => (i, task_outcome req (net i)))) with hpairsdef
      have hkeysnd : (pairs.map Prod.fst).Nodup := by
        rw [hpairs.1]; exact List.nodup_range' _ _
      have hresnd : ((complete pairs).map Prod.fst).Nodup :=
        (((hperm pairs).map Prod.fst).nodup_iff).2 hkeysnd
      set out1 := (complete pairs).foldl (fun o p => o.set p.1 (some p.2)) out with hout1
      have hlen1 : out1.length = requests.length := by
        rw [hout1, foldl_set_length]; exact hlen
      have hstep := ih m out1 hlen1 (by omega)
      refine ⟨hstep.1, fun j hj => ?_⟩
      rw [hstep.2 j hj]
      by_cases hjm : m ≤ j
      · rw [if_pos hjm, if_pos (by omega)]
      · rw [if_neg hjm]
        by_cases hjc : cursor ≤ j
        · rw [if_pos hjc]
          have hjwin : j ∈ List.range' cursor (m - cursor) := by
            rw [List.mem_range'_1]; omega
          have hjkeys : j ∈ pairs.map Prod.fst := by rw [hpairs.1]; exact hjwin
          obtain ⟨p, hpmem, hpfst⟩ := List.mem_map.1 hjkeys
          have hpval := hpairs.2 p hpmem
          have hpc : (j, p.2) ∈ complete pairs := by
            rw [(hperm pairs).mem_iff]
            rw [← hpfst]
            exact hpmem
          rw [hout1, foldl_set_mem (complete pairs) out j p.2 hresnd hpc (by omega)]
          rw [hpfst] at hpval
          have hreq : requests[j]? = some requests[j] :=
            List.getElem?_eq_getElem hj
          rw [hreq] at hpval ⊢
          simp only [Option.map_some'] at hpval ⊢
          rw [Option.some.inj hpval]
        · rw [if_neg hjc]
          rw [hout1, foldl_set_not_mem (complete pairs) out j ?_]
          intro p hp hpj
          have hpp : p ∈ pairs := ((hperm pairs).mem_iff).1 hp
          have : p.1 ∈ pairs.map Prod.fst := List.mem_map_of_mem Prod.fst hpp
          rw [hpairs.1] at this
          have := (hwin p.1 this).1
          omega
    · rw [if_neg hcur]
      refine ⟨hlen, fun j hj => ?_⟩
      rw [if_neg (by omega)]
      rfl

theorem collectResponsesAux_spec (f : ℕ → ScreepsResponse) :
    ∀ (l : List (Option ScreepsResponse)) (k : ℕ),
      (∀ j, j < l.length → l[j]? = some (some (f (k + j)))) →
      collectResponsesAux k l = .ok ((List.range l.length).map (fun j => f (k + j))) := by
  intro l
  induction l with
  | nil => intro k _; rfl
  | cons a rest ih =>
    intro k h
    have h0 := h 0 (by simp)
    simp only [List.getElem?_cons_zero, Option.some.injEq] at h0
    subst h0
    rw [collectResponsesAux]
    have hshift : ∀ j, j < rest.length → rest[j]? = some (some (f (k + 1 + j))) := by
      intro j hj
      have := h (j + 1) (by simpa using Nat.succ_lt_succ hj)
      rw [List.getElem?_cons_succ] at this
      rwa [show k + (j + 1) = k + 1 + j by omega] at this
    rw [ih (k + 1) hshift]
    simp only [Except.map, List.length_cons, List.range_succ_eq_map, List.map_cons,
      List.map_map, Nat.add_zero]
    congr 2
    apply List.map_congr_left
    intro j _
    simp only [Function.comp_apply]
    rw [show k + (j + 1) = k + 1 + j by omega]

/-- C4: for a non-empty batch, whenever the batch does not abort on a
scheduling fault, `screeps_request_many` returns exactly N envelopes in
input order — independently of the order in which each window's tasks
complete — and a transport failure at index i yields, at index i, the
status-0 error envelope instead of aborting the batch. -/
theorem request_many_ordered (requests : List ScreepsRequest) (max_concurrency : Option ℕ)
    (net : ℕ → Except String ScreepsResponse)
    (complete : List (ℕ × ScreepsResponse) → List (ℕ × ScreepsResponse))
    (hne : requests ≠ [])
    (hperm : ∀ l, (complete l).Perm l) :
    ∃ out, screeps_request_many requests max_concurrency net complete = .ok out ∧
      out.length = requests.length ∧
      (∀ j, ∀ hj : j < requests.length,
        out[j]? = some (task_outcome (requests.get ⟨j, hj⟩) (net j))) ∧
      (∀ j, ∀ hj : j < requests.length, ∀ e, net j = .error e →
        out[j]? = some
          { status := 0
            ok := false
            data := Json.obj [("error", Json.str e)]
            url := request_url (requests.get ⟨j, hj⟩) }) := by
  have hconc : 1 ≤ clamp_concurrency max_concurrency := Nat.le_max_right _ _
  have hfold := windows_fold_spec requests net complete hperm
    (clamp_concurrency max_concurrency) hconc requests.length 0
    (List.replicate requests.length (none : Option ScreepsResponse))
    (List.length_replicate _ _) (by omega)
  set final := (windowsFromAux requests.length (clamp_concurrency max_concurrency)
      requests.length 0).foldl
    (fun out window =>
      (complete (window.filterMap (fun i =>
        (requests[i]?).map (fun req => (i, task_outcome req (net i)))))).foldl
        (fun o p => o.set p.1 (some p.2)) out)
    (List.replicate requests.length (none : Option ScreepsResponse)) with hfinal
  have hchar : ∀ j, ∀ hj : j < requests.length,
      final[j]? = some (some (task_outcome (requests.get ⟨j, hj⟩) (net j))) := by
    intro j hj
    rw [hfold.2 j hj, if_pos (Nat.zero_le j), List.getElem?_eq_getElem hj]
    simp
  have hcollect := collectResponsesAux_spec
    (fun j => ((requests[j]?).map (fun req => task_outcome req (net j))).getD
      (error_response emptyScreepsRequest "")) final 0 ?_
  · refine ⟨(List.range final.length).map (fun j =>
        ((requests[0 + j]?).map (fun req => task_outcome req (net (0 + j)))).getD
          (error_response emptyScreepsRequest "")), ?_, ?_, ?_, ?_⟩
    · show screeps_request_many requests max_concurrency net complete = _
      unfold screeps_request_many
      rw [if_neg (by simpa using hne)]
      exact hcollect
    · simp [hfold.1]
    · intro j hj
      have hjf : j < final.length := by rw [hfold.1]; exact hj
      rw [List.getElem?_map, List.getElem?_range hjf]
      simp only [Option.map_some', Nat.zero_add]
      rw [List.getElem?_eq_getElem hj]
      simp [List.get_eq_getElem]
    · intro j hj e hnet
      have hjf : j < final.length := by rw [hfold.1]; exact hj
      rw [List.getElem?_map, List.getElem?_range hjf]
      simp only [Option.map_some', Nat.zero_add]
      rw [List.getElem?_eq_getElem hj]
      simp only [Option.map_some', Option.getD_some, Option.some.injEq]
      rw [hnet]
      simp [task_outcome, error_response, List.get_eq_getElem]
  · intro j hj
    rw [hfold.1] at hj
    rw [hchar j hj]
    simp [Nat.zero_add, List.getElem?_eq_getElem hj, List.get_eq_getElem]

/-- C4 witness: a two-element batch where the second task's transport
fails returns two envelopes in order, the second being the status-0
error envelope. -/
theorem request_many_ordered_witness :
    demoBatchRequests ≠ [] ∧
    (∀ l : List (ℕ × ScreepsResponse), (id l).Perm l) ∧
    (∃ out, screeps_request_many demoBatchRequests none
        (fun i => if i = 0
          then (Except.ok { status := 200, ok := true, data := Json.obj [], url := "u" } :
            Except String ScreepsResponse)
          else Except.error "boom") id = .ok out ∧
      out.length = demoBatchRequests.length ∧
      (∀ j, ∀ hj : j < demoBatchRequests.length,
        out[j]? = some (task_outcome (demoBatchRequests.get ⟨j, hj⟩)
          ((fun i => if i = 0
            then (Except.ok { status := 200, ok := true, data := Json.obj [], url := "u" } :
              Except String ScreepsResponse)
            else Except.error "boom") j))) ∧
      (∀ j, ∀ hj : j < demoBatchRequests.length, ∀ e,
        (fun i => if i = 0
          then (Except.ok { status := 200, ok := true, data := Json.obj [], url := "u" } :
            Except String ScreepsResponse)
          else Except.error "boom") j = Except.error e →
        out[j]? = some
          { status := 0
            ok := false
            data := Json.obj [("error", Json.str e)]
            url := request_url (demoBatchRequests.get ⟨j, hj⟩) })) :=
  ⟨List.cons_ne_nil _ _, fun l => List.Perm.refl l,
   request_many_ordered demoBatchRequests none _ id
     (List.cons_ne_nil _ _) (fun l => List.Perm.refl l)⟩

/-! ### C6: room name normalization -/

theorem takeWhile_of_all {p : Char → Bool} :
    ∀ l : List Char, (∀ x ∈ l, p x = true) → l.takeWhile p = l := by
  intro l
  induction l with
  | nil => intro _; rfl
  | cons a rest ih =>
    intro h
    rw [List.takeWhile_cons, h a (List.mem_cons_self a rest)]
    simp [ih (fun x hx => h x (List.mem_cons_of_mem a hx))]

theorem takeWhile_all_append {p : Char → Bool} :
    ∀ (ds : List Char) (d : Char) (vs : List Char), (∀ x ∈ ds, p x = true) → p d = false →
    (ds ++ d :: vs).takeWhile p = ds ∧ (ds ++ d :: vs).dropWhile p = d :: vs := by
  intro ds
  induction ds with
  | nil =>
    intro d vs _ hd
    simp [List.takeWhile_cons, List.dropWhile_cons, hd]
  | cons a rest ih =>
    intro d vs h hd
    have ha := h a (List.mem_cons_self a rest)
    have hr := ih d vs (fun x hx => h x (List.mem_cons_of_mem a hx)) hd
    simp only [List.cons_append, List.takeWhile_cons, List.dropWhile_cons, ha]
    simp [hr.1, hr.2]

theorem mem_of_takeWhile {p : Char → Bool} :
    ∀ l : List Char, ∀ x ∈ l.takeWhile p, p x = true := by
  intro l
  induction l with
  | nil => intro x hx; simp at hx
  | cons a rest ih =>
    intro x hx
    rw [List.takeWhile_cons] at hx
    cases ha : p a with
    | true =>
      simp only [ha, if_true] at hx
      rcases List.mem_cons.1 hx with rfl | hx2
      · exact ha
      · exact ih x hx2
    | false => simp [ha] at hx

/-- Soundness of one scan step: a successful match yields a run of the
required shape no longer than the input. -/
theorem matchRoomRun_sound (cs run : List Char) (h : matchRoomRun cs = some run) :
    SpecRoomName run ∧ run.length ≤ cs.length := by
  match cs with
  | [] => simp [matchRoomRun] at h
  | c :: rest =>
    rw [matchRoomRun] at h
    by_cases hc : c = 'W' ∨ c = 'E'
    case neg => rw [if_neg hc] at h; cases h
    rw [if_pos hc] at h
    by_cases hds : rest.takeWhile isAsciiDigit = []
    case pos => rw [if_pos hds] at h; cases h
    rw [if_neg hds] at h
    cases hdrop : rest.dropWhile isAsciiDigit with
    | nil => rw [hdrop] at h; cases h
    | cons d rest2 =>
      rw [hdrop] at h
      dsimp only at h
      by_cases hd : d = 'N' ∨ d = 'S'
      case neg => rw [if_neg hd] at h; cases h
      rw [if_pos hd] at h
      by_cases hvs : rest2.takeWhile isAsciiDigit = []
      case pos => rw [if_pos hvs] at h; cases h
      rw [if_neg hvs] at h
      injection h with h2
      subst h2
      constructor
      · exact ⟨c, rest.takeWhile isAsciiDigit, d, rest2.takeWhile isAsciiDigit,
          rfl, hc, hds, mem_of_takeWhile rest, hd, hvs, mem_of_takeWhile rest2⟩
      · have hsplit : rest.length =
            (rest.takeWhile isAsciiDigit).length + (d :: rest2).length := by
          conv_lhs => rw [← List.takeWhile_append_dropWhile (p := isAsciiDigit) (l := rest)]
          rw [List.length_append, hdrop]
        have hvslen : (rest2.takeWhile isAsciiDigit).length ≤ rest2.length :=
          (List.takeWhile_sublist _).length_le
        simp only [List.length_cons, List.length_append] at hsplit ⊢
        omega

theorem scanRoomStarts_sound (cs run : List Char) (h : scanRoomStarts cs = some run) :
    SpecRoomName run ∧ run.length ≤ cs.length := by
  induction cs with
  | nil => simp [scanRoomStarts] at h
  | cons c rest ih =>
    rw [scanRoomStarts] at h
    cases hm : matchRoomRun (c :: rest) with
    | some r =>
      rw [hm] at h
      injection h with h2
      subst h2
      exact matchRoomRun_sound _ _ hm
    | none =>
      rw [hm] at h
      obtain ⟨hspec, hlen⟩ := ih h
      exact ⟨hspec, Nat.le_succ_of_le hlen⟩

/-- Completeness: a whole-string pattern match is found by the scan at
the first position. -/
theorem matchRoomRun_of_spec (cs : List Char) (h : SpecRoomName cs) :
    matchRoomRun cs = some cs := by
  obtain ⟨c, ds, d, vs, rfl, hc, hds, hdsall, hd, hvs, hvsall⟩ := h
  have hdnot : isAsciiDigit d = false := by
    rcases hd with rfl | rfl <;> decide
  have hsplit := takeWhile_all_append ds d vs hdsall hdnot
  rw [matchRoomRun, if_pos hc, hsplit.1, hsplit.2, if_neg hds]
  dsimp only
  rw [if_pos hd, takeWhile_of_all vs hvsall, if_neg hvs]

theorem scanRoomStarts_self_iff (cs : List Char) :
    scanRoomStarts cs = some cs ↔ SpecRoomName cs := by
  constructor
  · intro h
    cases cs with
    | nil => simp [scanRoomStarts] at h
    | cons c rest =>
      rw [scanRoomStarts] at h
      cases hm : matchRoomRun (c :: rest) with
      | some r =>
        rw [hm] at h
        injection h with h2
        subst h2
        exact (matchRoomRun_sound _ _ hm).1
      | none =>
        rw [hm] at h
        have := (scanRoomStarts_sound rest _ h).2
        simp at this
  · intro h
    have hne : cs ≠ [] := by
      obtain ⟨c, ds, d, vs, rfl, _⟩ := h
      simp
    cases cs with
    | nil => exact absurd rfl hne
    | cons c rest =>
      rw [scanRoomStarts, matchRoomRun_of_spec _ h]

theorem asciiUpper_fixed_of_digit (x : Char) (h : isAsciiDigit x = true) :
    asciiUpper x = x := by
  rw [asciiUpper, if_neg]
  rintro ⟨h1, _⟩
  simp only [isAsciiDigit, Bool.and_eq_true, decide_eq_true_eq] at h
  have : ('a' : Char) ≤ '9' := le_trans h1 h.2
  exact absurd this (by decide)

theorem specRoomName_map_asciiUpper (cs : List Char) (h : SpecRoomName cs) :
    cs.map asciiUpper = cs := by
  obtain ⟨c, ds, d, vs, rfl, hc, _, hdsall, hd, _, hvsall⟩ := h
  have hcfix : asciiUpper c = c := by rcases hc with rfl | rfl <;> decide
  have hdfix : asciiUpper d = d := by rcases hd with rfl | rfl <;> decide
  have hds2 : ds.map asciiUpper = ds := by
    rw [List.map_congr_left (fun x hx => asciiUpper_fixed_of_digit x (hdsall x hx))]
    exact List.map_id ds
  have hvs2 : vs.map asciiUpper = vs := by
    rw [List.map_congr_left (fun x hx => asciiUpper_fixed_of_digit x (hvsall x hx))]
    exact List.map_id vs
  simp only [List.map_cons, List.map_append, hcfix, hdfix, hds2, hvs2]


theorem extract_self_iff (N : String) :
    extract_room_candidate N = some N ↔ SpecRoomName N.data := by
  rw [extract_room_candidate]
  constructor
  · intro h
    obtain ⟨l, hl, hmk⟩ := Option.map_eq_some'.1 h
    have hldata : l = N.data := congrArg String.data hmk
    subst hldata
    exact (scanRoomStarts_sound _ _ hl).1
  · intro h
    have hfix : N.data.map asciiUpper = N.data := specRoomName_map_asciiUpper _ h
    have hscan : scanRoomStarts ((strUpper N).data) = some N.data := by
      show scanRoomStarts (N.data.map asciiUpper) = _
      rw [hfix]
      exact (scanRoomStarts_self_iff N.data).2 h
    rw [hscan]
    rfl

/-- C6: room-name normalization trims and uppercases, and accepts
exactly the strings whose normalized form is one contiguous
`[W|E]<digits>[N|S]<digits>` run; "w5n8" normalizes to "W5N8",
"not-a-room" is rejected, and on a rejected room name
`screeps_room_detail_fetch` fails identically under every network
oracle — no network call can influence the outcome. -/
theorem normalize_room_name_pattern :
    (∀ s u : String, normalize_room_name s = .ok u ↔
      (u = strUpper (strTrim s) ∧ SpecRoomName u.data)) ∧
    normalize_room_name "w5n8" = .ok "W5N8" ∧
    normalize_room_name "not-a-room" = .error "Invalid room name: not-a-room" ∧
    (∀ (request : ScreepsRoomDetailRequest)
        (fetchA fetchB : List ScreepsRequest → Option Json) (fetched_at : String),
      (normalize_room_name request.room_name).isOk = false →
      screeps_room_detail_fetch request fetchA fetched_at =
        screeps_room_detail_fetch request fetchB fetched_at ∧
      ∃ msg, screeps_room_detail_fetch request fetchA fetched_at = .error msg) := by
  refine ⟨?_, rfl, rfl, ?_⟩
  · intro s u
    constructor
    · intro h
      simp only [normalize_room_name] at h
      split at h
      · rename_i hcond
        injection h with h2
        subst h2
        exact ⟨rfl, (extract_self_iff _).1 hcond⟩
      · cases h
    · rintro ⟨rfl, hspec⟩
      simp only [normalize_room_name]
      rw [if_pos ((extract_self_iff _).2 hspec)]
  · intro request fetchA fetchB fetched_at hbad
    by_cases ht : strTrim request.token = ""
    · refine ⟨by simp [screeps_room_detail_fetch, ht], "Token cannot be empty", ?_⟩
      simp [screeps_room_detail_fetch, ht]
    · by_cases hu : strTrim request.username = ""
      · refine ⟨by simp [screeps_room_detail_fetch, ht, hu], "Username cannot be empty", ?_⟩
        simp [screeps_room_detail_fetch, ht, hu]
      · cases hn : normalize_room_name request.room_name with
        | ok room => rw [hn] at hbad; simp [Except.isOk, Except.toBool] at hbad
        | error e =>
          refine ⟨by simp [screeps_room_detail_fetch, ht, hu, hn], e, ?_⟩
          simp [screeps_room_detail_fetch, ht, hu, hn]

/-- C6 witness: a request naming the room "not-a-room" fails with the
same validation error no matter what the network would have answered. -/
theorem normalize_room_name_pattern_witness :
    (normalize_room_name demoBadRoomRequest.room_name).isOk = false ∧
    (screeps_room_detail_fetch demoBadRoomRequest (fun _ => some (Json.obj [])) "0" =
      screeps_room_detail_fetch demoBadRoomRequest (fun _ => none) "0" ∧
     ∃ msg, screeps_room_detail_fetch demoBadRoomRequest (fun _ => some (Json.obj [])) "0" =
       .error msg) :=
  ⟨rfl, normalize_room_name_pattern.2.2.2 demoBadRoomRequest _ _ "0" rfl⟩

/-! ### C7: coordinate filtering in the room parser -/

theorem mapInsert_forall {T : Type} {Q : String × T → Prop} {m : List (String × T)}
    {k : String} {v : T} (hm : ∀ p ∈ m, Q p) (hv : Q (k, v)) :
    ∀ p ∈ mapInsert m k v, Q p := by
  intro p hp
  rcases mem_mapInsert hp with rfl | hp2
  · exact hv
  · exact hm p hp2

theorem foldl_preserve {α β : Type} (P : α → Prop) (f : α → β → α)
    (hf : ∀ a b, P a → P (f a b)) : ∀ (l : List β) (a : α), P a → P (l.foldl f a) := by
  intro l
  induction l with
  | nil => exact fun a ha => ha
  | cons b rest ih => exact fun a ha => ih (f a b) (hf a b ha)

set_option maxHeartbeats 3200000 in
theorem process_record_coords (room_name : String) (record : List (String × Json))
    (acc : ParseAcc) (h : accCoordsOK acc) :
    accCoordsOK (process_record room_name acc record) := by
  obtain ⟨h1, h2, h3, h4, h5⟩ := h
  rw [process_record]
  repeat' split
  all_goals
    exact ⟨by first
            | exact h1
            | exact mapInsert_forall h1 (by (try simp [build_object_summary]); omega),
          by first
            | exact h2
            | exact mapInsert_forall h2 (by (try simp [build_object_summary]); omega),
          by first
            | exact h3
            | exact mapInsert_forall h3 (by (try simp [build_object_summary]); omega),
          by first
            | exact h4
            | exact mapInsert_forall h4 (by (try simp [build_object_summary]); omega),
          by first
            | exact h5
            | exact mapInsert_forall h5 (by (try simp [build_object_summary]); omega)⟩

theorem value_as_i64_int (n : ℤ) :
    value_as_i64 (.num (n : ℚ)) = if n < I64_MIN ∨ n > I64_MAX then none else some n := by
  rw [value_as_i64, value_as_f64]
  simp only [round_intCast, sub_self, abs_zero]
  rw [if_neg (by norm_num)]

theorem value_as_i64_num49 : value_as_i64 (.num 49) = some 49 := by
  have h := value_as_i64_int 49
  norm_num [I64_MIN, I64_MAX] at h
  exact_mod_cast h

theorem value_as_i64_num50 : value_as_i64 (.num 50) = some 50 := by
  have h := value_as_i64_int 50
  norm_num [I64_MIN, I64_MAX] at h
  exact_mod_cast h

theorem value_as_i64_num10 : value_as_i64 (.num 10) = some 10 := by
  have h := value_as_i64_int 10
  norm_num [I64_MIN, I64_MAX] at h
  exact_mod_cast h

/-- C7: every record contributes a source/mineral/structure/creep/object
entry only when its x and y parse as integers in [0,49]; in particular
every entry of every parse result is in bounds, a source at (49,49) is
kept and a record at (50,10) is dropped. -/
theorem parse_entities_coord_bounds :
    (∀ (room_name : String) (shard_hint : Option String) (payloads : List (Option Json)),
      entityCoordsOK (parse_entities room_name shard_hint payloads)) ∧
    (parse_entities "W1N1" none [some demoRoomObjectsPayload]).sources =
      [{ x := 49, y := 49 }] := by
  constructor
  · intro room_name shard_hint payloads
    have hstep : ∀ (acc : ParseAcc) (payload : Option Json), accCoordsOK acc →
        accCoordsOK (match payload with
          | none => acc
          | some payload_value =>
            (extract_room_object_records payload_value).foldl (process_record room_name) acc) := by
      intro acc payload hacc
      cases payload with
      | none => exact hacc
      | some payload_value =>
        exact foldl_preserve accCoordsOK (process_record room_name)
          (fun a b ha => process_record_coords room_name b a ha)
          (extract_room_object_records payload_value) acc hacc
    have hinit : accCoordsOK
        { shard := shard_hint, owner := none, controller_level := none,
          energy_available := none, energy_capacity := none,
          sources := [], minerals := [], structures := [], creeps := [], objects := [] } := by
      refine ⟨?_, ?_, ?_, ?_, ?_⟩ <;> intro p hp <;> simp at hp
    have hacc := foldl_preserve accCoordsOK _ hstep payloads _ hinit
    obtain ⟨g1, g2, g3, g4, g5⟩ := hacc
    simp only [parse_entities]
    refine ⟨?_, ?_, ?_, ?_, ?_⟩ <;> intro v hv <;>
      obtain ⟨p, hp, rfl⟩ := List.mem_map.1 hv
    · exact g1 p hp
    · exact g2 p hp
    · exact g3 p hp
    · exact g4 p hp
    · exact g5 p hp
  · have hrecs : extract_room_object_records demoRoomObjectsPayload =
        [[("type", Json.str "source"), ("x", Json.num 49), ("y", Json.num 49)],
         [("type", Json.str "source"), ("x", Json.num 50), ("y", Json.num 10)]] := rfl
    simp only [parse_entities, List.foldl, hrecs, process_record, extract_record_room_name,
      List.findSome?, Json.getField, value_as_non_empty_string, map_first_string,
      map_first_f64, value_as_f64, resolve_object_type, normalize_shard,
      collect_numeric_map, as_object, Option.bind, value_as_i64_num49,
      value_as_i64_num50, value_as_i64_num10, mapInsert, List.filter, List.map,
      String.reduceEq, reduceIte, reduceCtorEq, ne_eq, bne_iff_ne, decide_not,
      Bool.not_eq_true, Option.isSome]

/-- C7 witness: the invariant instantiated at the demonstration
payload. -/
theorem parse_entities_coord_bounds_witness :
    entityCoordsOK (parse_entities "W1N1" none [some demoRoomObjectsPayload]) :=
  parse_entities_coord_bounds.1 "W1N1" none [some demoRoomObjectsPayload]

end Screeps
